import Mathlib

/-!
Verification of the City of Chicago taxi-trips downloader.

The repository holds two variants of the download script:
* `src/download.js` — the original script (no byte limit, unconditional
  finalization), modelled in namespace `DownloadJs`;
* `src/unnamed/part_000` — the extended script with interactive byte-limit
  negotiation and conditional finalization, modelled in namespace `Part000`.

Modelling conventions:
* Records are opaque, already-serialized values: each record is modelled by
  its serialized JSON text as a `List Char` (`JSON.stringify(records[i])`
  is the identity on this representation).
* The output file content is a `List Char`; an absent file is `none`.
* The persisted state file is `Option (Option StateRec)`:
  `none` = file absent, `some none` = file present but `JSON.parse` throws,
  `some (some s)` = file parses to the record `s`.
* The size-query response is `Option (List CountRow)`: `none` = the request
  threw (timeout / network error); a row's `count` field is
  `Option (Option Nat)`: `none` = field missing or falsy, `some none` =
  field truthy but `parseInt` yields `NaN`, `some (some n)` = `parseInt`
  yields `n`.  `getDatasetSize` therefore returns `Option Nat`, with `none`
  standing for the JavaScript `NaN` (every `<`/`>=` comparison with it is
  false).
* Side effects of one run are recorded in a trace of `Event`s.  The
  alphabet includes `Event.flush`, an fsync/flush-equivalent durability
  primitive; the scripts never invoke one, so no code path emits it.
* The main `while` loop is embedded with an explicit fuel argument; the
  orchestrators call it with fuel `T + 1`, which is strictly larger than
  the maximal possible number of iterations `T - offset`, so the
  fuel-exhausted branch is unreachable and the loop faithfully models the
  JavaScript `while (offset < totalRecords)` loop.
-/

/-- A record, represented by its serialized JSON text. -/
abbrev Rec := List Char

/-- `CHUNK_SIZE` from both scripts: the page size of every data request. -/
def CHUNK_SIZE : Nat := 50000

/-- `HARDCODED_TOTAL` from both scripts: fallback total record count. -/
def HARDCODED_TOTAL : Nat := 211670894

/-- The persisted `download_state.json` record: `{ offset, limitBytes }`.
`src/download.js` saves only `{ offset }`; reading it back yields
`limitBytes = none` (JavaScript `undefined`), so one record type covers
both scripts. -/
structure StateRec where
  offset : Nat
  limitBytes : Option Nat
deriving DecidableEq, Repr

/-- `readState`: returns the parsed record if the state file exists and
parses, and the zero-value state `{offset := 0, limitBytes := none}` if the
file is absent or `JSON.parse` throws (the exception is caught). -/
def readState : Option (Option StateRec) → StateRec
  | some (some s) => s
  | some none => ⟨0, none⟩
  | none => ⟨0, none⟩

/-- Console output of `readState`: the catch branch logs one error line. -/
def readStateLog : Option (Option StateRec) → List String
  | some none => ["Error reading state file, starting fresh."]
  | _ => []

/-- The `count` field of one row of the size response (see module header). -/
abbrev CountRow := Option (Option Nat)

/-- `getDatasetSize`: returns `parseInt(response.data[0].count)` when the
request succeeds, the data array is nonempty and its first row has a truthy
`count`; in every other case falls through to `HARDCODED_TOTAL`.  The
result `none` models `NaN` (a truthy `count` whose `parseInt` fails). -/
def getDatasetSize (resp : Option (List CountRow)) : Option Nat :=
  match resp with
  | none => some HARDCODED_TOTAL
  | some [] => some HARDCODED_TOTAL
  | some (none :: _) => some HARDCODED_TOTAL
  | some (some parsed :: _) => parsed

/-- `saveState(offset, limitBytes)`: the state file content after
`fs.writeFileSync(STATE_FILE, JSON.stringify({ offset, limitBytes }))`. -/
def saveState (offset : Nat) (limitBytes : Option Nat) : Option (Option StateRec) :=
  some (some ⟨offset, limitBytes⟩)

/-- `Math.floor(limitGB * 1024 * 1024 * 1024)`: GB (a float, modelled as a
rational) to a byte count.  Computed on the exact rational as integer
division of the scaled numerator by the denominator; the theorem
`gbToBytes_floor` below proves this equals `⌊gb * 2 ^ 30⌋.toNat`, the
literal `Math.floor` form. -/
def gbToBytes (gb : ℚ) : Nat :=
  ((gb.num * (1024 * 1024 * 1024)) / (gb.den : ℤ)).toNat

/-- Answer to `Resume to limit of ...? [Y/n/extend]` in part_000:
anything other than `n`/`extend`/`e` defaults to yes. -/
inductive ResumeAnswer
  | yes
  | no
  | extendChoice
deriving DecidableEq, Repr

/-- Answer script for `askNewLimit` in part_000: `(A)ll`, or `(L)imit` with
the `parseFloat` of the entered GB amount (`none` = `NaN`). -/
inductive NewLimitAnswer
  | allRecords
  | limitGB (gb : Option ℚ)
deriving DecidableEq, Repr

/-- Answer script for `askToExtend` in part_000: `N`, `A`, or a number
(`parseFloat` result, `none` = `NaN`). -/
inductive ExtendAnswer
  | exitN
  | allA
  | addGB (gb : Option ℚ)
deriving DecidableEq, Repr

/-- The human answers consumed by the interactive limit negotiation. -/
structure PromptScript where
  resume : ResumeAnswer
  newLimit : NewLimitAnswer
  extendAns : ExtendAnswer
deriving DecidableEq, Repr

/-- Result of the limit negotiation: `exit0` models `process.exit(0)`;
`proceed limitBytes` is the value the promise resolves with
(`none` = unlimited). -/
inductive PromptOutcome
  | exit0
  | proceed (limitBytes : Option Nat)
deriving DecidableEq, Repr

/-- `askNewLimit` in part_000: `A` (or anything but `L`) resolves
unlimited; `L` with an invalid or non-positive GB amount resolves
unlimited; otherwise resolves `gbToBytes` of the amount. -/
def askNewLimit (script : PromptScript) : PromptOutcome :=
  match script.newLimit with
  | NewLimitAnswer.allRecords => PromptOutcome.proceed none
  | NewLimitAnswer.limitGB none => PromptOutcome.proceed none
  | NewLimitAnswer.limitGB (some gb) =>
    if gb ≤ 0 then PromptOutcome.proceed none
    else PromptOutcome.proceed (some (gbToBytes gb))

/-- `askToExtend` in part_000: `N` exits the process with status 0; an
invalid or non-positive amount also exits with status 0; `A` removes the
limit; a positive amount extends additively on top of the current limit
(base 0 when no numeric limit exists). -/
def askToExtend (currentLimit : Option Nat) (script : PromptScript) : PromptOutcome :=
  match script.extendAns with
  | ExtendAnswer.exitN => PromptOutcome.exit0
  | ExtendAnswer.allA => PromptOutcome.proceed none
  | ExtendAnswer.addGB none => PromptOutcome.exit0
  | ExtendAnswer.addGB (some gb) =>
    if gb ≤ 0 then PromptOutcome.exit0
    else PromptOutcome.proceed (some (currentLimit.getD 0 + gbToBytes gb))

/-- `askUserForLimit(currentOffset, savedLimitBytes)` in part_000 (the
first argument is the byte count already on disk, as at the call site).
With a saved limit not yet reached it offers resume / replace / extend;
with a saved limit reached it goes straight to `askToExtend`; with no
saved limit it asks for a fresh choice. -/
def askUserForLimit (currentOffset : Nat) (savedLimitBytes : Option Nat)
    (script : PromptScript) : PromptOutcome :=
  match savedLimitBytes with
  | some savedLimit =>
    if currentOffset < savedLimit then
      match script.resume with
      | ResumeAnswer.no => askNewLimit script
      | ResumeAnswer.extendChoice => askToExtend (some savedLimit) script
      | ResumeAnswer.yes => PromptOutcome.proceed (some savedLimit)
    else askToExtend (some savedLimit) script
  | none => askNewLimit script

/-- The chunk text built by the inner `for` loop of both scripts: a comma
before record `i` unless `isFirstChunk` holds and `i = 0`. -/
def chunkData : Bool → List Rec → List Char
  | _, [] => []
  | isFirstChunk, r :: rs =>
    (if isFirstChunk then r else ',' :: r) ++ chunkData false rs

/-- All records of a list, each preceded by one comma. -/
def joinRest (rs : List Rec) : List Char :=
  (rs.map (fun r => ',' :: r)).flatten

/-- Records joined by single-comma separators (no leading or trailing
separator): the body of the on-disk JSON array. -/
def sepJoin : List Rec → List Char
  | [] => []
  | r :: rs => r ++ joinRest rs

/-- One HTTP page request as issued by the retry loop of either script. -/
structure SocrataRequest where
  pageLimit : Nat
  offset : Nat
  order : String
  timeoutMs : Nat
deriving DecidableEq, Repr

/-- The request both scripts build for a page: `$limit = CHUNK_SIZE`,
`$offset = offset`, `$order = ':id'`, and the script's timeout. -/
def pageRequest (tmo offset : Nat) : SocrataRequest :=
  ⟨CHUNK_SIZE, offset, ":id", tmo⟩

/-- Result of fetching one page through the retry loop: the records (or
`none` if the final attempt's exception propagated), the requests issued,
and the sleeps (in ms) performed between attempts. -/
structure FetchResult where
  result : Option (List Rec)
  requests : List SocrataRequest
  sleeps : List Nat
deriving DecidableEq, Repr

/-- The retry loop of both scripts (`retries = 3`): attempt the request;
on success break; on failure decrement, rethrow when no retries remain,
otherwise sleep 2000 ms and try again.  `respond req k` is the outcome of
the `k`-th attempt of request `req`. -/
def fetchAttempts (respond : SocrataRequest → Nat → Option (List Rec))
    (req : SocrataRequest) : Nat → Nat → FetchResult
  | 0, _ => ⟨none, [], []⟩
  | retries + 1, attempt =>
    match respond req attempt with
    | some records => ⟨some records, [req], []⟩
    | none =>
      if retries = 0 then ⟨none, [req], []⟩
      else
        let rest := fetchAttempts respond req retries (attempt + 1)
        ⟨rest.result, req :: rest.requests, 2000 :: rest.sleeps⟩

/-- Fetch one page at `offset`: the retry loop entered with `retries = 3`. -/
def fetchPage (tmo : Nat) (respond : SocrataRequest → Nat → Option (List Rec))
    (offset : Nat) : FetchResult :=
  fetchAttempts respond (pageRequest tmo offset) 3 0

/-- Observable side effects of one run.  `flush` is an fsync/flush
durability primitive: it is part of the alphabet but neither script ever
invokes one (`writer.write` only buffers; the only wait is the
backpressure `drain` event, which is not a durability barrier). -/
inductive Event
  | fetch (offset : Nat)
  | write (chunk : List Char)
  | save (offset : Nat) (limitBytes : Option Nat)
  | flush
  | closeArray
  | unlinkState
deriving DecidableEq, Repr

/-- Mutable state of the main download loop. -/
structure LoopSt where
  offset : Nat
  downloadedBytes : Nat
  isFirstChunk : Bool
  file : List Char
  stateFile : Option (Option StateRec)
  trace : List Event
deriving DecidableEq, Repr

/-- Why the `while` loop stopped. -/
inductive ExitCause
  | emptyPage
  | limitReached
  | fetchFailed
  | condFalse
deriving DecidableEq, Repr

/-- The part_000 guard `sizeLimitBytes !== null && downloadedBytes >=
sizeLimitBytes` (download.js has no limit, which is the `none` case). -/
def limitHit (limitBytes : Option Nat) (downloadedBytes : Nat) : Bool :=
  match limitBytes with
  | some b => decide (b ≤ downloadedBytes)
  | none => false

/-- The loop-state update for one accepted chunk: build the chunk text,
write it (appending to the file and counting its bytes), advance the
offset by the page length, clear `isFirstChunk`, and persist the state. -/
def writeStep (st : LoopSt) (records : List Rec) (limitBytes : Option Nat) : LoopSt :=
  { offset := st.offset + records.length
    downloadedBytes := st.downloadedBytes + (chunkData st.isFirstChunk records).length
    isFirstChunk := false
    file := st.file ++ chunkData st.isFirstChunk records
    stateFile := saveState (st.offset + records.length) limitBytes
    trace := st.trace ++
      [Event.fetch st.offset, Event.write (chunkData st.isFirstChunk records),
       Event.save (st.offset + records.length) limitBytes] }

/-- The shared `while (offset < totalRecords)` loop body of both scripts:
fetch a page with retries (propagating the failure to the catch handler,
which in part_000 re-saves the state: `catchSaves = true`); break on an
empty page; in part_000 break when the byte limit is already reached
before writing; otherwise build the chunk text, write it, advance the
offset, clear `isFirstChunk` and persist the state. -/
def loop (respond : SocrataRequest → Nat → Option (List Rec)) (tmo : Nat)
    (catchSaves : Bool) (T : Nat) (limitBytes : Option Nat) :
    Nat → LoopSt → ExitCause × LoopSt
  | 0, st => (ExitCause.condFalse, st)
  | fuel + 1, st =>
    if st.offset < T then
      match (fetchPage tmo respond st.offset).result with
      | none =>
        if catchSaves then
          (ExitCause.fetchFailed,
            { st with
                stateFile := saveState st.offset limitBytes
                trace := st.trace ++
                  [Event.fetch st.offset, Event.save st.offset limitBytes] })
        else
          (ExitCause.fetchFailed,
            { st with trace := st.trace ++ [Event.fetch st.offset] })
      | some records =>
        if records.length = 0 then
          (ExitCause.emptyPage,
            { st with trace := st.trace ++ [Event.fetch st.offset] })
        else if limitHit limitBytes st.downloadedBytes then
          (ExitCause.limitReached,
            { st with trace := st.trace ++ [Event.fetch st.offset] })
        else
          loop respond tmo catchSaves T limitBytes fuel (writeStep st records limitBytes)
    else (ExitCause.condFalse, st)

/-- The world owned by the downloader: the persisted state file and the
output dataset file. -/
structure Sys where
  stateFile : Option (Option StateRec)
  dataFile : Option (List Char)
deriving DecidableEq, Repr

/-- How a run ended.  `exited0` models `process.exit(0)` inside the
limit negotiation of part_000. -/
inductive Outcome
  | exited0
  | completed
  | paused (cause : ExitCause)
  | failed
deriving DecidableEq, Repr

/-- Everything observable about one run of either script. -/
structure RunResult where
  outcome : Outcome
  sys : Sys
  cause : Option ExitCause
  limitBytes : Option Nat
  finalOffset : Nat
  finalBytes : Nat
  initialBytes : Nat
  trace : List Event
deriving Repr

/-- Initial `downloadedBytes` of a run: the size of the existing output
file when `offset > 0` and the file exists, else 0. -/
def preBytes (offset : Nat) (dataFile : Option (List Char)) : Nat :=
  if 0 < offset then
    match dataFile with
    | some f => f.length
    | none => 0
  else 0

/-- JavaScript `offset >= total` where `total` may be `NaN` (`none`):
every comparison with `NaN` is false. -/
def jsGe (offset : Nat) (total : Option Nat) : Bool :=
  match total with
  | some t => decide (t ≤ offset)
  | none => false

/-- The initial loop state of one run of either script, given the
effective starting offset: a fresh run (`offset = 0`) truncates the file,
writes the opening bracket and counts it; a resume appends to the existing
file content (the `downloadedBytes` counter starts at the size of the
existing file, per `preBytes`). -/
def initSt (offset : Nat) (dataFile : Option (List Char))
    (stateFile : Option (Option StateRec)) : LoopSt :=
  { offset := offset
    downloadedBytes :=
      if offset = 0 then preBytes offset dataFile + 1 else preBytes offset dataFile
    isFirstChunk := offset == 0
    file := if offset = 0 then ['['] else dataFile.getD []
    stateFile := stateFile
    trace := [] }

namespace Part000

/-- part_000 uses a 60 s per-request timeout. -/
def tmoMs : Nat := 60000

/-- The finalization of a part_000 run (the code after the `while` loop
and the catch handler): a fetch failure ends the run `Failed` with the
state re-saved by the catch handler and the array left open; otherwise the
closing bracket is written and the state file deleted if and only if
`offset >= totalRecords` (`NaN` compares false), else the run is paused
with the files exactly as the loop left them. -/
def finalize (totalRecords : Option Nat) (sizeLimitBytes : Option Nat)
    (initialBytes : Nat) (res : ExitCause × LoopSt) : RunResult :=
  if res.1 = ExitCause.fetchFailed then
    { outcome := Outcome.failed, sys := ⟨res.2.stateFile, some res.2.file⟩
      cause := some res.1, limitBytes := sizeLimitBytes
      finalOffset := res.2.offset, finalBytes := res.2.downloadedBytes
      initialBytes := initialBytes, trace := res.2.trace }
  else if jsGe res.2.offset totalRecords then
    { outcome := Outcome.completed, sys := ⟨none, some (res.2.file ++ [']'])⟩
      cause := some res.1, limitBytes := sizeLimitBytes
      finalOffset := res.2.offset, finalBytes := res.2.downloadedBytes
      initialBytes := initialBytes
      trace := res.2.trace ++ [Event.closeArray, Event.unlinkState] }
  else
    { outcome := Outcome.paused res.1, sys := ⟨res.2.stateFile, some res.2.file⟩
      cause := some res.1, limitBytes := sizeLimitBytes
      finalOffset := res.2.offset, finalBytes := res.2.downloadedBytes
      initialBytes := initialBytes, trace := res.2.trace }

/-- The part of `downloadDataset` in part_000 after
`const sizeLimitBytes = await askUserForLimit(...)` resolved: fetch the
total, open the writer (`initSt`), run the loop, and finalize. -/
def runWithLimit (respond : SocrataRequest → Nat → Option (List Rec))
    (sizeResp : Option (List CountRow)) (sizeLimitBytes : Option Nat)
    (sys : Sys) : RunResult :=
  let totalRecords := getDatasetSize sizeResp
  let st0 : LoopSt := initSt (readState sys.stateFile).offset sys.dataFile sys.stateFile
  finalize totalRecords sizeLimitBytes st0.downloadedBytes
    (match totalRecords with
     | some T => loop respond tmoMs true T sizeLimitBytes (T + 1) st0
     | none => (ExitCause.condFalse, st0))

/-- `downloadDataset` of `src/unnamed/part_000`: read state, compute the
bytes already on disk, negotiate the limit (possibly `process.exit(0)`,
leaving both files untouched since the writer is only opened afterwards),
then run `runWithLimit`. -/
def downloadDataset (respond : SocrataRequest → Nat → Option (List Rec))
    (sizeResp : Option (List CountRow)) (script : PromptScript)
    (sys : Sys) : RunResult :=
  match askUserForLimit (preBytes (readState sys.stateFile).offset sys.dataFile)
      (readState sys.stateFile).limitBytes script with
  | PromptOutcome.exit0 =>
    { outcome := Outcome.exited0, sys := sys, cause := none, limitBytes := none
      finalOffset := (readState sys.stateFile).offset
      finalBytes := preBytes (readState sys.stateFile).offset sys.dataFile
      initialBytes := preBytes (readState sys.stateFile).offset sys.dataFile
      trace := [] }
  | PromptOutcome.proceed sizeLimitBytes =>
    runWithLimit respond sizeResp sizeLimitBytes sys

end Part000

namespace DownloadJs

/-- download.js uses a 45 s per-request timeout. -/
def tmoMs : Nat := 45000

/-- The validation at the top of `downloadDataset` in download.js: a
loaded positive offset with the dataset file missing is reset to 0. -/
def initOffset (stored : Option (Option StateRec))
    (dataFile : Option (List Char)) : Nat :=
  if 0 < (readState stored).offset ∧ dataFile = none then 0
  else (readState stored).offset

/-- The finalization of a download.js run: the catch handler (fetch
failure) saves nothing and leaves the array open; on every other exit the
closing bracket is written and the state file deleted unconditionally. -/
def finalize (initialBytes : Nat) (res : ExitCause × LoopSt) : RunResult :=
  if res.1 = ExitCause.fetchFailed then
    { outcome := Outcome.failed, sys := ⟨res.2.stateFile, some res.2.file⟩
      cause := some res.1, limitBytes := none
      finalOffset := res.2.offset, finalBytes := res.2.downloadedBytes
      initialBytes := initialBytes, trace := res.2.trace }
  else
    { outcome := Outcome.completed, sys := ⟨none, some (res.2.file ++ [']'])⟩
      cause := some res.1, limitBytes := none
      finalOffset := res.2.offset, finalBytes := res.2.downloadedBytes
      initialBytes := initialBytes
      trace := res.2.trace ++ [Event.closeArray, Event.unlinkState] }

/-- `downloadDataset` of `src/download.js`: no limit negotiation, the
missing-file reset (`initOffset`), then the loop and the unconditional
finalization; the catch handler saves nothing (the state file keeps its
last written content). -/
def downloadDataset (respond : SocrataRequest → Nat → Option (List Rec))
    (sizeResp : Option (List CountRow)) (sys : Sys) : RunResult :=
  let totalRecords := getDatasetSize sizeResp
  let st0 : LoopSt := initSt (initOffset sys.stateFile sys.dataFile) sys.dataFile sys.stateFile
  finalize st0.downloadedBytes
    (match totalRecords with
     | some T => loop respond tmoMs false T none (T + 1) st0
     | none => (ExitCause.condFalse, st0))

end DownloadJs

/-- Inputs of one part_000 run (the external world of §6 of the spec). -/
structure RunInput where
  respond : SocrataRequest → Nat → Option (List Rec)
  sizeResp : Option (List CountRow)
  script : PromptScript

/-- One part_000 run against the current persisted world. -/
def runSys (inp : RunInput) (sys : Sys) : RunResult :=
  Part000.downloadDataset inp.respond inp.sizeResp inp.script sys

/-- Any number of part_000 runs and resumptions, in order. -/
def runAll : List RunInput → Sys → Sys
  | [], sys => sys
  | inp :: rest, sys => runAll rest (runSys inp sys).sys

/-- The world before the very first run: no state file, no output file. -/
def initSys : Sys := ⟨none, none⟩

/-- The offsets persisted by the `save` events of a trace, in order. -/
def savedOffsets (tr : List Event) : List Nat :=
  tr.filterMap (fun e =>
    match e with
    | Event.save o _ => some o
    | _ => none)

/-- Inter-run invariant: whenever the persisted state records a positive
offset `o`, the output file is an open JSON array (`[` followed by `o`
comma-separated records, closing bracket omitted). -/
def SysInv (sys : Sys) : Prop :=
  ∀ o l, sys.stateFile = some (some ⟨o, l⟩) → 0 < o →
    ∃ recs : List Rec,
      sys.dataFile = some ('[' :: sepJoin recs) ∧ recs.length = o ∧ recs ≠ []

/-- Loop invariant tying the loop state to the records written so far. -/
def LInv (st : LoopSt) (recs : List Rec) : Prop :=
  st.file = '[' :: sepJoin recs ∧ recs.length = st.offset ∧
    (st.isFirstChunk = true → recs = []) ∧
    (st.isFirstChunk = false → recs ≠ [])

/-! ### Helper lemmas: byte-limit conversion -/

theorem gbToBytes_floor (gb : ℚ) :
    gbToBytes gb = (Int.floor (gb * (1024 * 1024 * 1024 : ℚ))).toNat := by
  have h : gb * (1024 * 1024 * 1024 : ℚ) =
      ((gb.num * (1024 * 1024 * 1024) : ℤ) : ℚ) / ((gb.den : ℕ) : ℚ) := by
    conv_lhs => rw [← Rat.num_div_den gb]
    push_cast
    ring
  rw [gbToBytes, h, Rat.floor_intCast_div_natCast]

/-! ### Helper lemmas: chunk serialization and separators -/

theorem chunkData_false (rs : List Rec) : chunkData false rs = joinRest rs := by
  induction rs with
  | nil => rfl
  | cons r rest ih => simp [chunkData, joinRest, ih]

theorem chunkData_true (rs : List Rec) : chunkData true rs = sepJoin rs := by
  cases rs with
  | nil => rfl
  | cons r rest => simp [chunkData, sepJoin, chunkData_false]

theorem joinRest_append (a b : List Rec) :
    joinRest (a ++ b) = joinRest a ++ joinRest b := by
  simp [joinRest]

theorem sepJoin_append (recs page : List Rec) (h : recs ≠ []) :
    sepJoin (recs ++ page) = sepJoin recs ++ joinRest page := by
  cases recs with
  | nil => exact absurd rfl h
  | cons r rest => simp [sepJoin, joinRest_append]

/-! ### Helper lemmas: the retry loop -/

theorem fetchPage_result_some (tmo : Nat)
    (respond : SocrataRequest → Nat → Option (List Rec)) (offset : Nat)
    (rs : List Rec) (h : (fetchPage tmo respond offset).result = some rs) :
    ∃ k, respond (pageRequest tmo offset) k = some rs := by
  unfold fetchPage at h
  rcases h0 : respond (pageRequest tmo offset) 0 with _ | v0
  · rcases h1 : respond (pageRequest tmo offset) 1 with _ | v1
    · rcases h2 : respond (pageRequest tmo offset) 2 with _ | v2
      · simp [fetchAttempts, h0, h1, h2] at h
      · refine ⟨2, ?_⟩
        simp [fetchAttempts, h0, h1, h2] at h
        rw [h2, h]
    · refine ⟨1, ?_⟩
      simp [fetchAttempts, h0, h1] at h
      rw [h1, h]
  · refine ⟨0, ?_⟩
    simp [fetchAttempts, h0] at h
    rw [h0, h]

theorem fetchAttempts_spec (tmo : Nat)
    (respond : SocrataRequest → Nat → Option (List Rec)) (offset : Nat) :
    (fetchPage tmo respond offset).requests.length ≤ 3 ∧
    (∀ r ∈ (fetchPage tmo respond offset).requests, r = pageRequest tmo offset) ∧
    (fetchPage tmo respond offset).sleeps =
      List.replicate ((fetchPage tmo respond offset).requests.length - 1) 2000 ∧
    ((fetchPage tmo respond offset).result = none ↔
      respond (pageRequest tmo offset) 0 = none ∧
        respond (pageRequest tmo offset) 1 = none ∧
        respond (pageRequest tmo offset) 2 = none) := by
  rcases h0 : respond (pageRequest tmo offset) 0 with _ | v0 <;>
    rcases h1 : respond (pageRequest tmo offset) 1 with _ | v1 <;>
      rcases h2 : respond (pageRequest tmo offset) 2 with _ | v2 <;>
        simp [fetchPage, fetchAttempts, h0, h1, h2, List.replicate]

/-! ### Helper lemmas: the main loop -/

theorem loop_offset_le (respond : SocrataRequest → Nat → Option (List Rec))
    (tmo : Nat) (cs : Bool) (T : Nat) (lb : Option Nat) :
    ∀ fuel st, st.offset ≤ (loop respond tmo cs T lb fuel st).2.offset := by
  intro fuel
  induction fuel with
  | zero => intro st; simp [loop]
  | succ n ih =>
    intro st
    simp only [loop]
    by_cases h : st.offset < T
    · simp only [if_pos h]
      rcases hr : (fetchPage tmo respond st.offset).result with _ | records
      · by_cases hcs : cs <;> simp [hcs]
      · by_cases hlen : records.length = 0
        · simp [hlen]
        · by_cases hl : limitHit lb st.downloadedBytes
          · simp [hlen, hl]
          · simp only [hlen, hl, if_false, Bool.false_eq_true, ite_false]
            refine le_trans ?_ (ih _)
            simp [writeStep]
    · simp [if_neg h]

theorem loop_state_or (respond : SocrataRequest → Nat → Option (List Rec))
    (tmo : Nat) (cs : Bool) (T : Nat) (lb : Option Nat) :
    ∀ fuel st,
      ((loop respond tmo cs T lb fuel st).2.stateFile = st.stateFile ∧
        (loop respond tmo cs T lb fuel st).2.offset = st.offset ∧
        (loop respond tmo cs T lb fuel st).2.file = st.file ∧
        (loop respond tmo cs T lb fuel st).2.downloadedBytes = st.downloadedBytes) ∨
      (loop respond tmo cs T lb fuel st).2.stateFile =
        saveState (loop respond tmo cs T lb fuel st).2.offset lb := by
  intro fuel
  induction fuel with
  | zero => intro st; simp [loop]
  | succ n ih =>
    intro st
    simp only [loop]
    by_cases h : st.offset < T
    · simp only [if_pos h]
      rcases hr : (fetchPage tmo respond st.offset).result with _ | records
      · by_cases hcs : cs <;> simp [hcs]
      · by_cases hlen : records.length = 0
        · simp [hlen]
        · by_cases hl : limitHit lb st.downloadedBytes
          · simp [hlen, hl]
          · simp only [hlen, hl, if_false, Bool.false_eq_true, ite_false]
            rcases ih (writeStep st records lb) with hcase | hcase
            · refine Or.inr ?_
              rw [hcase.1, hcase.2.1]
              simp [writeStep]
            · exact Or.inr hcase
    · simp [if_neg h]

theorem loop_trace_append (respond : SocrataRequest → Nat → Option (List Rec))
    (tmo : Nat) (cs : Bool) (T : Nat) (lb : Option Nat) :
    ∀ fuel st, ∃ d,
      (loop respond tmo cs T lb fuel st).2.trace = st.trace ++ d ∧
      (∀ e ∈ d, (∃ o, e = Event.fetch o) ∨ (∃ c, e = Event.write c) ∨
        (∃ o l, e = Event.save o l)) ∧
      List.Chain' (· ≤ ·) (st.offset :: savedOffsets d) := by
  intro fuel
  induction fuel with
  | zero => intro st; exact ⟨[], by simp [loop], by simp, by simp [savedOffsets]⟩
  | succ n ih =>
    intro st
    simp only [loop]
    by_cases h : st.offset < T
    · simp only [if_pos h]
      rcases hr : (fetchPage tmo respond st.offset).result with _ | records
      · by_cases hcs : cs
        · refine ⟨[Event.fetch st.offset, Event.save st.offset lb], ?_, ?_, ?_⟩
          · simp [hcs]
          · intro e he
            simp only [List.mem_cons, List.not_mem_nil, or_false] at he
            rcases he with he | he
            · exact Or.inl ⟨st.offset, he⟩
            · exact Or.inr (Or.inr ⟨st.offset, lb, he⟩)
          · simp [savedOffsets, List.chain'_cons]
        · refine ⟨[Event.fetch st.offset], ?_, ?_, ?_⟩
          · simp [hcs]
          · intro e he
            simp only [List.mem_cons, List.not_mem_nil, or_false] at he
            exact Or.inl ⟨st.offset, he⟩
          · simp [savedOffsets]
      · by_cases hlen : records.length = 0
        · refine ⟨[Event.fetch st.offset], ?_, ?_, ?_⟩
          · simp [hlen]
          · intro e he
            simp only [List.mem_cons, List.not_mem_nil, or_false] at he
            exact Or.inl ⟨st.offset, he⟩
          · simp [savedOffsets]
        · by_cases hl : limitHit lb st.downloadedBytes
          · refine ⟨[Event.fetch st.offset], ?_, ?_, ?_⟩
            · simp [hlen, hl]
            · intro e he
              simp only [List.mem_cons, List.not_mem_nil, or_false] at he
              exact Or.inl ⟨st.offset, he⟩
            · simp [savedOffsets]
          · simp only [hlen, hl, if_false, Bool.false_eq_true, ite_false]
            rcases ih (writeStep st records lb) with ⟨d2, hd1, hd2, hd3⟩
            refine ⟨[Event.fetch st.offset,
              Event.write (chunkData st.isFirstChunk records),
              Event.save (st.offset + records.length) lb] ++ d2, ?_, ?_, ?_⟩
            · rw [hd1]
              simp [writeStep]
            · intro e he
              rcases List.mem_append.mp he with he | he
              · simp only [List.mem_cons, List.not_mem_nil, or_false] at he
                rcases he with he | he | he
                · exact Or.inl ⟨st.offset, he⟩
                · exact Or.inr (Or.inl ⟨chunkData st.isFirstChunk records, he⟩)
                · exact Or.inr (Or.inr ⟨st.offset + records.length, lb, he⟩)
              · exact hd2 e he
            · have hws : (writeStep st records lb).offset = st.offset + records.length := rfl
              rw [hws] at hd3
              have hsv : savedOffsets
                  ([Event.fetch st.offset,
                    Event.write (chunkData st.isFirstChunk records),
                    Event.save (st.offset + records.length) lb] ++ d2) =
                  (st.offset + records.length) :: savedOffsets d2 := by
                simp [savedOffsets]
              rw [hsv, List.chain'_cons]
              exact ⟨Nat.le_add_right _ _, hd3⟩
    · exact ⟨[], by simp [if_neg h], by simp, by simp [savedOffsets]⟩

theorem loop_cause_spec (respond : SocrataRequest → Nat → Option (List Rec))
    (tmo : Nat) (cs : Bool) (T : Nat) (lb : Option Nat) :
    ∀ fuel st, T - st.offset < fuel →
      ((loop respond tmo cs T lb fuel st).1 = ExitCause.condFalse →
        T ≤ (loop respond tmo cs T lb fuel st).2.offset) ∧
      ((loop respond tmo cs T lb fuel st).1 = ExitCause.emptyPage →
        (fetchPage tmo respond (loop respond tmo cs T lb fuel st).2.offset).result =
            some [] ∧
          (loop respond tmo cs T lb fuel st).2.offset < T) ∧
      ((loop respond tmo cs T lb fuel st).1 = ExitCause.limitReached →
        limitHit lb (loop respond tmo cs T lb fuel st).2.downloadedBytes = true ∧
          (loop respond tmo cs T lb fuel st).2.offset < T) ∧
      ((loop respond tmo cs T lb fuel st).1 = ExitCause.fetchFailed →
        (fetchPage tmo respond (loop respond tmo cs T lb fuel st).2.offset).result =
            none ∧
          (loop respond tmo cs T lb fuel st).2.offset < T ∧
          (cs = true → (loop respond tmo cs T lb fuel st).2.stateFile =
            saveState (loop respond tmo cs T lb fuel st).2.offset lb)) := by
  intro fuel
  induction fuel with
  | zero => intro st hfuel; omega
  | succ n ih =>
    intro st hfuel
    simp only [loop]
    by_cases h : st.offset < T
    · simp only [if_pos h]
      rcases hr : (fetchPage tmo respond st.offset).result with _ | records
      · by_cases hcs : cs <;> simp [hcs, hr, h, saveState]
      · by_cases hlen : records.length = 0
        · have hrecs : records = [] := List.length_eq_zero.mp hlen
          subst hrecs
          simp [hr, h]
        · by_cases hl : limitHit lb st.downloadedBytes
          · simp [hlen, hl, h]
          · simp only [hlen, hl, if_false, Bool.false_eq_true, ite_false]
            refine ih (writeStep st records lb) ?_
            have : (writeStep st records lb).offset = st.offset + records.length := rfl
            rw [this]
            omega
    · simp only [if_neg h]
      refine ⟨fun _ => by omega, by simp, by simp, by simp⟩

theorem loop_db_file (respond : SocrataRequest → Nat → Option (List Rec))
    (tmo : Nat) (cs : Bool) (T : Nat) (lb : Option Nat) :
    ∀ fuel st, st.downloadedBytes = st.file.length →
      (loop respond tmo cs T lb fuel st).2.downloadedBytes =
        (loop respond tmo cs T lb fuel st).2.file.length := by
  intro fuel
  induction fuel with
  | zero => intro st hdb; simpa [loop] using hdb
  | succ n ih =>
    intro st hdb
    simp only [loop]
    by_cases h : st.offset < T
    · simp only [if_pos h]
      rcases hr : (fetchPage tmo respond st.offset).result with _ | records
      · by_cases hcs : cs <;> simpa [hcs] using hdb
      · by_cases hlen : records.length = 0
        · simpa [hlen] using hdb
        · by_cases hl : limitHit lb st.downloadedBytes
          · simpa [hlen, hl] using hdb
          · simp only [hlen, hl, if_false, Bool.false_eq_true, ite_false]
            refine ih (writeStep st records lb) ?_
            simp [writeStep, hdb]
    · simpa [if_neg h] using hdb

theorem loop_limit_bound (respond : SocrataRequest → Nat → Option (List Rec))
    (tmo : Nat) (cs : Bool) (T : Nat) (B W : Nat)
    (hW : ∀ o k rs, respond (pageRequest tmo o) k = some rs →
      ∀ b, (chunkData b rs).length ≤ W) :
    ∀ fuel st,
      (loop respond tmo cs T (some B) fuel st).2.downloadedBytes < B + W ∨
      (loop respond tmo cs T (some B) fuel st).2.downloadedBytes =
        st.downloadedBytes := by
  intro fuel
  induction fuel with
  | zero => intro st; simp [loop]
  | succ n ih =>
    intro st
    simp only [loop]
    by_cases h : st.offset < T
    · simp only [if_pos h]
      rcases hr : (fetchPage tmo respond st.offset).result with _ | records
      · by_cases hcs : cs <;> simp [hcs]
      · by_cases hlen : records.length = 0
        · simp [hlen]
        · by_cases hl : limitHit (some B) st.downloadedBytes
          · simp [hlen, hl]
          · simp only [hlen, hl, if_false, Bool.false_eq_true, ite_false]
            have hdb : st.downloadedBytes < B := by
              by_contra hcon
              exact hl (by simp [limitHit]; omega)
            have hchunk : (chunkData st.isFirstChunk records).length ≤ W := by
              rcases fetchPage_result_some tmo respond st.offset records hr with ⟨k, hk⟩
              exact hW st.offset k records hk st.isFirstChunk
            have hws : (writeStep st records (some B)).downloadedBytes =
                st.downloadedBytes + (chunkData st.isFirstChunk records).length := rfl
            rcases ih (writeStep st records (some B)) with hcase | hcase
            · exact Or.inl hcase
            · refine Or.inl ?_
              rw [hcase, hws]
              omega
    · simp [if_neg h]

theorem loop_LInv (respond : SocrataRequest → Nat → Option (List Rec))
    (tmo : Nat) (cs : Bool) (T : Nat) (lb : Option Nat) :
    ∀ fuel st recs, LInv st recs →
      ∃ recs2, LInv (loop respond tmo cs T lb fuel st).2 recs2 := by
  intro fuel
  induction fuel with
  | zero => intro st recs hinv; exact ⟨recs, by simpa [loop] using hinv⟩
  | succ n ih =>
    intro st recs hinv
    simp only [loop]
    by_cases h : st.offset < T
    · simp only [if_pos h]
      rcases hr : (fetchPage tmo respond st.offset).result with _ | records
      · by_cases hcs : cs
        · refine ⟨recs, ?_⟩
          simp only [hcs, if_true]
          exact ⟨hinv.1, hinv.2.1, hinv.2.2.1, hinv.2.2.2⟩
        · refine ⟨recs, ?_⟩
          simp only [hcs, if_false, Bool.false_eq_true, ite_false]
          exact ⟨hinv.1, hinv.2.1, hinv.2.2.1, hinv.2.2.2⟩
      · by_cases hlen : records.length = 0
        · refine ⟨recs, ?_⟩
          simp only [hlen, if_true]
          exact ⟨hinv.1, hinv.2.1, hinv.2.2.1, hinv.2.2.2⟩
        · by_cases hl : limitHit lb st.downloadedBytes
          · refine ⟨recs, ?_⟩
            simp only [hlen, hl, if_true, if_false, Bool.false_eq_true, ite_false]
            exact ⟨hinv.1, hinv.2.1, hinv.2.2.1, hinv.2.2.2⟩
          · simp only [hlen, hl, if_false, Bool.false_eq_true, ite_false]
            refine ih (writeStep st records lb) (recs ++ records) ?_
            have hrecs : records ≠ [] := fun hc => hlen (by simp [hc])
            rcases hinv with ⟨hfile, hlenr, hfc1, hfc2⟩
            refine ⟨?_, ?_, ?_, ?_⟩
            · show st.file ++ chunkData st.isFirstChunk records =
                '[' :: sepJoin (recs ++ records)
              cases hfc : st.isFirstChunk with
              | true =>
                have : recs = [] := hfc1 hfc
                subst this
                rw [hfile]
                simp [sepJoin, chunkData_true]
              | false =>
                have hne : recs ≠ [] := hfc2 hfc
                rw [hfile, chunkData_false, sepJoin_append recs records hne]
                simp
            · show (recs ++ records).length = st.offset + records.length
              simp [hlenr]
            · intro hcon
              cases hcon
            · intro _
              simp [hrecs]
    · exact ⟨recs, by simpa [if_neg h] using hinv⟩

/-! ### Helper lemmas: separator counting and placement -/

theorem joinRest_count (rs : List Rec) (hc : ∀ r ∈ rs, ',' ∉ r) :
    (joinRest rs).count ',' = rs.length := by
  induction rs with
  | nil => simp [joinRest]
  | cons r rest ih =>
    have hr : ',' ∉ r := hc r (List.mem_cons_self r rest)
    have hrest : ∀ x ∈ rest, ',' ∉ x := fun x hx => hc x (List.mem_cons_of_mem r hx)
    have : joinRest (r :: rest) = (',' :: r) ++ joinRest rest := by
      simp [joinRest]
    rw [this, List.count_append, List.count_cons_self,
      List.count_eq_zero.mpr hr, ih hrest]
    simp only [List.length_cons]
    omega

theorem sepJoin_count (recs : List Rec) (hne : recs ≠ [])
    (hc : ∀ r ∈ recs, ',' ∉ r) :
    (sepJoin recs).count ',' = recs.length - 1 := by
  cases recs with
  | nil => exact absurd rfl hne
  | cons r rest =>
    have hr : ',' ∉ r := hc r (List.mem_cons_self r rest)
    have hrest : ∀ x ∈ rest, ',' ∉ x := fun x hx => hc x (List.mem_cons_of_mem r hx)
    rw [sepJoin, List.count_append, List.count_eq_zero.mpr hr,
      joinRest_count rest hrest]
    simp

theorem sepJoin_head (r : Rec) (rs : List Rec) (hne : r ≠ []) (hc : ',' ∉ r) :
    (sepJoin (r :: rs)).head? ≠ some ',' := by
  rw [sepJoin, List.head?_append_of_ne_nil r hne]
  cases r with
  | nil => exact absurd rfl hne
  | cons c cr =>
    simp only [List.head?_cons, ne_eq, Option.some.injEq]
    intro hcon
    exact hc (by rw [hcon]; exact List.mem_cons_self _ _)

theorem sepJoin_getLast (recs : List Rec) (hne : recs ≠ [])
    (hall : ∀ r ∈ recs, r ≠ [] ∧ ',' ∉ r) :
    (sepJoin recs).getLast? ≠ some ',' := by
  induction recs with
  | nil => exact absurd rfl hne
  | cons r rest ih =>
    rcases hall r (List.mem_cons_self r rest) with ⟨hr, hrc⟩
    cases rest with
    | nil =>
      have : sepJoin [r] = r := by simp [sepJoin, joinRest]
      rw [this]
      intro hcon
      have hmem : ',' ∈ r.getLast? := by rw [Option.mem_def, hcon]
      rcases List.mem_getLast?_eq_getLast hmem with ⟨hh, heq⟩
      exact hrc (by rw [heq]; exact List.getLast_mem hh)
    | cons r2 rest2 =>
      have hall2 : ∀ x ∈ r2 :: rest2, x ≠ [] ∧ ',' ∉ x :=
        fun x hx => hall x (List.mem_cons_of_mem r hx)
      have hr2 : r2 ≠ [] := (hall2 r2 (List.mem_cons_self r2 rest2)).1
      have hjr : joinRest (r2 :: rest2) = ',' :: sepJoin (r2 :: rest2) := by
        simp [joinRest, sepJoin]
      have hstep : sepJoin (r :: r2 :: rest2) =
          r ++ (',' :: sepJoin (r2 :: rest2)) := by
        rw [sepJoin, hjr]
      rw [hstep, List.getLast?_append_of_ne_nil r (by simp)]
      have hsne : sepJoin (r2 :: rest2) ≠ [] := by
        rw [sepJoin]
        cases r2 with
        | nil => exact absurd rfl hr2
        | cons c cr => simp
      cases hs : sepJoin (r2 :: rest2) with
      | nil => exact absurd hs hsne
      | cons c cr =>
        rw [List.getLast?_cons_cons]
        rw [hs] at ih
        exact ih (by simp) hall2

/-! ### Helper lemmas: run structure -/

theorem part000_proceed (respond : SocrataRequest → Nat → Option (List Rec))
    (sizeResp : Option (List CountRow)) (script : PromptScript) (sys : Sys)
    (lim : Option Nat)
    (h : askUserForLimit (preBytes (readState sys.stateFile).offset sys.dataFile)
      (readState sys.stateFile).limitBytes script = PromptOutcome.proceed lim) :
    Part000.downloadDataset respond sizeResp script sys =
      Part000.runWithLimit respond sizeResp lim sys := by
  unfold Part000.downloadDataset
  rw [h]

theorem part000_exit0 (respond : SocrataRequest → Nat → Option (List Rec))
    (sizeResp : Option (List CountRow)) (script : PromptScript) (sys : Sys)
    (h : askUserForLimit (preBytes (readState sys.stateFile).offset sys.dataFile)
      (readState sys.stateFile).limitBytes script = PromptOutcome.exit0) :
    Part000.downloadDataset respond sizeResp script sys =
      { outcome := Outcome.exited0, sys := sys, cause := none, limitBytes := none
        finalOffset := (readState sys.stateFile).offset
        finalBytes := preBytes (readState sys.stateFile).offset sys.dataFile
        initialBytes := preBytes (readState sys.stateFile).offset sys.dataFile
        trace := [] } := by
  unfold Part000.downloadDataset
  rw [h]

theorem part000_runWithLimit_eq (respond : SocrataRequest → Nat → Option (List Rec))
    (sizeResp : Option (List CountRow)) (lim : Option Nat) (sys : Sys) :
    Part000.runWithLimit respond sizeResp lim sys =
      Part000.finalize (getDatasetSize sizeResp) lim
        (initSt (readState sys.stateFile).offset sys.dataFile sys.stateFile).downloadedBytes
        (match getDatasetSize sizeResp with
         | some T => loop respond Part000.tmoMs true T lim (T + 1)
             (initSt (readState sys.stateFile).offset sys.dataFile sys.stateFile)
         | none => (ExitCause.condFalse,
             initSt (readState sys.stateFile).offset sys.dataFile sys.stateFile)) := rfl

theorem downloadjs_eq (respond : SocrataRequest → Nat → Option (List Rec))
    (sizeResp : Option (List CountRow)) (sys : Sys) :
    DownloadJs.downloadDataset respond sizeResp sys =
      DownloadJs.finalize
        (initSt (DownloadJs.initOffset sys.stateFile sys.dataFile) sys.dataFile
          sys.stateFile).downloadedBytes
        (match getDatasetSize sizeResp with
         | some T => loop respond DownloadJs.tmoMs false T none (T + 1)
             (initSt (DownloadJs.initOffset sys.stateFile sys.dataFile) sys.dataFile
               sys.stateFile)
         | none => (ExitCause.condFalse,
             initSt (DownloadJs.initOffset sys.stateFile sys.dataFile) sys.dataFile
               sys.stateFile)) := rfl

theorem part000_finalize_cause (t : Option Nat) (lim : Option Nat) (db : Nat)
    (res : ExitCause × LoopSt) :
    (Part000.finalize t lim db res).cause = some res.1 := by
  unfold Part000.finalize
  split_ifs <;> rfl

theorem downloadjs_finalize_cause (db : Nat) (res : ExitCause × LoopSt) :
    (DownloadJs.finalize db res).cause = some res.1 := by
  unfold DownloadJs.finalize
  split_ifs <;> rfl

theorem part000_finalize_of_failed (t : Option Nat) (lim : Option Nat) (db : Nat)
    (res : ExitCause × LoopSt) (h : res.1 = ExitCause.fetchFailed) :
    Part000.finalize t lim db res =
      { outcome := Outcome.failed, sys := ⟨res.2.stateFile, some res.2.file⟩
        cause := some res.1, limitBytes := lim
        finalOffset := res.2.offset, finalBytes := res.2.downloadedBytes
        initialBytes := db, trace := res.2.trace } := by
  unfold Part000.finalize
  rw [if_pos h]

theorem part000_finalize_of_paused (t : Option Nat) (lim : Option Nat) (db : Nat)
    (res : ExitCause × LoopSt) (h1 : res.1 ≠ ExitCause.fetchFailed)
    (h2 : jsGe res.2.offset t = false) :
    Part000.finalize t lim db res =
      { outcome := Outcome.paused res.1, sys := ⟨res.2.stateFile, some res.2.file⟩
        cause := some res.1, limitBytes := lim
        finalOffset := res.2.offset, finalBytes := res.2.downloadedBytes
        initialBytes := db, trace := res.2.trace } := by
  unfold Part000.finalize
  rw [if_neg h1, h2]
  simp

theorem part000_finalize_of_completed (t : Option Nat) (lim : Option Nat) (db : Nat)
    (res : ExitCause × LoopSt) (h1 : res.1 ≠ ExitCause.fetchFailed)
    (h2 : jsGe res.2.offset t = true) :
    Part000.finalize t lim db res =
      { outcome := Outcome.completed, sys := ⟨none, some (res.2.file ++ [']'])⟩
        cause := some res.1, limitBytes := lim
        finalOffset := res.2.offset, finalBytes := res.2.downloadedBytes
        initialBytes := db
        trace := res.2.trace ++ [Event.closeArray, Event.unlinkState] } := by
  unfold Part000.finalize
  rw [if_neg h1, h2]
  simp

theorem downloadjs_finalize_of_failed (db : Nat) (res : ExitCause × LoopSt)
    (h : res.1 = ExitCause.fetchFailed) :
    DownloadJs.finalize db res =
      { outcome := Outcome.failed, sys := ⟨res.2.stateFile, some res.2.file⟩
        cause := some res.1, limitBytes := none
        finalOffset := res.2.offset, finalBytes := res.2.downloadedBytes
        initialBytes := db, trace := res.2.trace } := by
  unfold DownloadJs.finalize
  rw [if_pos h]

theorem downloadjs_finalize_of_ne (db : Nat) (res : ExitCause × LoopSt)
    (h : res.1 ≠ ExitCause.fetchFailed) :
    DownloadJs.finalize db res =
      { outcome := Outcome.completed, sys := ⟨none, some (res.2.file ++ [']'])⟩
        cause := some res.1, limitBytes := none
        finalOffset := res.2.offset, finalBytes := res.2.downloadedBytes
        initialBytes := db
        trace := res.2.trace ++ [Event.closeArray, Event.unlinkState] } := by
  unfold DownloadJs.finalize
  rw [if_neg h]

theorem jsGe_false_of_lt (o T : Nat) (h : o < T) : jsGe o (some T) = false := by
  simp [jsGe]
  omega

/-! ### Claim C1 (empty-page termination) -/

/-- C1, counterexample: in part_000, a run whose fetched page is empty at
offset 1 while the SizeOracle estimates 100 records does not end
`Completed` with the array closed and the state deleted: the run ends
`Paused`, the output file is left exactly as it was (no closing bracket)
and the persisted state record survives.  This refutes the claim as
stated for `src/unnamed/part_000`. -/
theorem c1_counterexample :
    (Part000.downloadDataset (fun _ _ => some ([] : List Rec))
      (some [some (some 100)])
      ⟨ResumeAnswer.yes, NewLimitAnswer.allRecords, ExtendAnswer.exitN⟩
      ⟨some (some ⟨1, none⟩), some ['[', 'a']⟩).cause = some ExitCause.emptyPage ∧
    (Part000.downloadDataset (fun _ _ => some ([] : List Rec))
      (some [some (some 100)])
      ⟨ResumeAnswer.yes, NewLimitAnswer.allRecords, ExtendAnswer.exitN⟩
      ⟨some (some ⟨1, none⟩), some ['[', 'a']⟩).outcome =
        Outcome.paused ExitCause.emptyPage ∧
    (Part000.downloadDataset (fun _ _ => some ([] : List Rec))
      (some [some (some 100)])
      ⟨ResumeAnswer.yes, NewLimitAnswer.allRecords, ExtendAnswer.exitN⟩
      ⟨some (some ⟨1, none⟩), some ['[', 'a']⟩).outcome ≠ Outcome.completed ∧
    (Part000.downloadDataset (fun _ _ => some ([] : List Rec))
      (some [some (some 100)])
      ⟨ResumeAnswer.yes, NewLimitAnswer.allRecords, ExtendAnswer.exitN⟩
      ⟨some (some ⟨1, none⟩), some ['[', 'a']⟩).sys.stateFile =
        some (some ⟨1, none⟩) ∧
    (Part000.downloadDataset (fun _ _ => some ([] : List Rec))
      (some [some (some 100)])
      ⟨ResumeAnswer.yes, NewLimitAnswer.allRecords, ExtendAnswer.exitN⟩
      ⟨some (some ⟨1, none⟩), some ['[', 'a']⟩).sys.dataFile = some ['[', 'a'] ∧
    (Part000.downloadDataset (fun _ _ => some ([] : List Rec))
      (some [some (some 100)])
      ⟨ResumeAnswer.yes, NewLimitAnswer.allRecords, ExtendAnswer.exitN⟩
      ⟨some (some ⟨1, none⟩), some ['[', 'a']⟩).finalOffset = 1 := by
  refine ⟨?_, ?_, ?_, ?_, ?_, ?_⟩ <;> decide

/-- C1 (amended): an empty fetched page always exits the loop with the
final offset equal to the offset of the empty fetch, independent of the
SizeOracle estimate — but the two scripts finalize differently.  In
`src/download.js` the run ends `Completed`: the closing bracket is
written, the state record is deleted and the final offset is the offset
whose fetch returned the empty page.  In `src/unnamed/part_000` an
empty-page exit (necessarily at an offset below the estimate) ends
`Paused`: the closing bracket is not written and the state record is not
deleted. -/
theorem c1_empty_page_amended :
    (∀ respond sizeResp sys,
      (DownloadJs.downloadDataset respond sizeResp sys).cause =
          some ExitCause.emptyPage →
        (DownloadJs.downloadDataset respond sizeResp sys).outcome =
            Outcome.completed ∧
        (DownloadJs.downloadDataset respond sizeResp sys).sys.stateFile = none ∧
        (∃ pre, (DownloadJs.downloadDataset respond sizeResp sys).sys.dataFile =
            some (pre ++ [']'])) ∧
        (fetchPage DownloadJs.tmoMs respond
          (DownloadJs.downloadDataset respond sizeResp sys).finalOffset).result =
            some []) ∧
    (∀ respond sizeResp script sys,
      (Part000.downloadDataset respond sizeResp script sys).cause =
          some ExitCause.emptyPage →
        (Part000.downloadDataset respond sizeResp script sys).outcome =
            Outcome.paused ExitCause.emptyPage ∧
        Event.closeArray ∉ (Part000.downloadDataset respond sizeResp script sys).trace ∧
        Event.unlinkState ∉ (Part000.downloadDataset respond sizeResp script sys).trace ∧
        (fetchPage Part000.tmoMs respond
          (Part000.downloadDataset respond sizeResp script sys).finalOffset).result =
            some []) := by
  constructor
  · intro respond sizeResp sys hc
    rw [downloadjs_eq] at hc ⊢
    rcases htot : getDatasetSize sizeResp with _ | T
    · rw [downloadjs_finalize_cause, htot] at hc
      simp at hc
    · rw [downloadjs_finalize_cause, htot] at hc
      have hc2 : (loop respond DownloadJs.tmoMs false T none (T + 1)
          (initSt (DownloadJs.initOffset sys.stateFile sys.dataFile) sys.dataFile
            sys.stateFile)).1 = ExitCause.emptyPage := Option.some.inj hc
      have hfuel : T - (initSt (DownloadJs.initOffset sys.stateFile sys.dataFile)
          sys.dataFile sys.stateFile).offset < T + 1 := by omega
      have hspec := loop_cause_spec respond DownloadJs.tmoMs false T none
        (T + 1) (initSt (DownloadJs.initOffset sys.stateFile sys.dataFile)
          sys.dataFile sys.stateFile) hfuel
      rcases (hspec.2.1) hc2 with ⟨hfetch, _⟩
      rw [downloadjs_finalize_of_ne _ _ (by rw [hc2]; simp)]
      exact ⟨rfl, rfl, ⟨_, rfl⟩, hfetch⟩
  · intro respond sizeResp script sys hc
    rcases hp : askUserForLimit (preBytes (readState sys.stateFile).offset sys.dataFile)
        (readState sys.stateFile).limitBytes script with _ | lim
    · rw [part000_exit0 respond sizeResp script sys hp] at hc
      simp at hc
    · rw [part000_proceed respond sizeResp script sys lim hp] at hc ⊢
      rw [part000_runWithLimit_eq] at hc ⊢
      rcases htot : getDatasetSize sizeResp with _ | T
      · rw [part000_finalize_cause, htot] at hc
        simp at hc
      · rw [part000_finalize_cause, htot] at hc
        have hc2 : (loop respond Part000.tmoMs true T lim (T + 1)
            (initSt (readState sys.stateFile).offset sys.dataFile
              sys.stateFile)).1 = ExitCause.emptyPage := Option.some.inj hc
        have hfuel : T - (initSt (readState sys.stateFile).offset sys.dataFile
            sys.stateFile).offset < T + 1 := by omega
        have hspec := loop_cause_spec respond Part000.tmoMs true T lim (T + 1)
          (initSt (readState sys.stateFile).offset sys.dataFile sys.stateFile) hfuel
        rcases (hspec.2.1) hc2 with ⟨hfetch, hlt⟩
        rw [part000_finalize_of_paused _ _ _ _ (by rw [hc2]; simp)
          (jsGe_false_of_lt _ _ hlt)]
        rcases loop_trace_append respond Part000.tmoMs true T lim (T + 1)
            (initSt (readState sys.stateFile).offset sys.dataFile sys.stateFile)
          with ⟨d, hd1, hd2, _⟩
        have htr : (loop respond Part000.tmoMs true T lim (T + 1)
            (initSt (readState sys.stateFile).offset sys.dataFile
              sys.stateFile)).2.trace = d := by
          rw [hd1]
          simp [initSt]
        refine ⟨by rw [hc2], ?_, ?_, hfetch⟩
        · simp only [htr]
          intro hmem
          rcases hd2 _ hmem with ⟨o, ho⟩ | ⟨c, ho⟩ | ⟨o, l, ho⟩ <;>
            exact Event.noConfusion ho
        · simp only [htr]
          intro hmem
          rcases hd2 _ hmem with ⟨o, ho⟩ | ⟨c, ho⟩ | ⟨o, l, ho⟩ <;>
            exact Event.noConfusion ho

/-- C1, witness: the download.js half of the amended theorem applied to a
concrete run (page at offset 1 empty, estimate 100): the run completes,
deletes the state record and closes the array. -/
theorem c1_empty_page_witness :
    (DownloadJs.downloadDataset (fun _ _ => some ([] : List Rec))
      (some [some (some 100)])
      ⟨some (some ⟨1, none⟩), some ['[', 'a']⟩).outcome = Outcome.completed ∧
    (DownloadJs.downloadDataset (fun _ _ => some ([] : List Rec))
      (some [some (some 100)])
      ⟨some (some ⟨1, none⟩), some ['[', 'a']⟩).sys.stateFile = none ∧
    (∃ pre, (DownloadJs.downloadDataset (fun _ _ => some ([] : List Rec))
      (some [some (some 100)])
      ⟨some (some ⟨1, none⟩), some ['[', 'a']⟩).sys.dataFile =
        some (pre ++ [']'])) ∧
    (fetchPage DownloadJs.tmoMs (fun _ _ => some ([] : List Rec))
      (DownloadJs.downloadDataset (fun _ _ => some ([] : List Rec))
        (some [some (some 100)])
        ⟨some (some ⟨1, none⟩), some ['[', 'a']⟩).finalOffset).result = some [] :=
  c1_empty_page_amended.1 (fun _ _ => some ([] : List Rec))
    (some [some (some 100)]) ⟨some (some ⟨1, none⟩), some ['[', 'a']⟩ (by decide)

theorem part000_finalize_trace (t : Option Nat) (lim : Option Nat) (db : Nat)
    (res : ExitCause × LoopSt) :
    (Part000.finalize t lim db res).trace = res.2.trace ∨
    (Part000.finalize t lim db res).trace =
      res.2.trace ++ [Event.closeArray, Event.unlinkState] := by
  unfold Part000.finalize
  split_ifs <;> simp

/-! ### Claim C6 (durable flush before offset commit) -/

/-- C6, counterexample: a concrete completed part_000 run commits the new
offset (a `save` event is in the trace) but no flush/fsync-equivalent
primitive is ever invoked (`Event.flush` is not in the trace), refuting
the claim that the sink is durably flushed before each offset commit. -/
theorem c6_counterexample :
    Event.save 1 none ∈ (Part000.downloadDataset (fun _ _ => some [['a']])
      (some [some (some 1)])
      ⟨ResumeAnswer.yes, NewLimitAnswer.allRecords, ExtendAnswer.exitN⟩
      ⟨none, none⟩).trace ∧
    Event.flush ∉ (Part000.downloadDataset (fun _ _ => some [['a']])
      (some [some (some 1)])
      ⟨ResumeAnswer.yes, NewLimitAnswer.allRecords, ExtendAnswer.exitN⟩
      ⟨none, none⟩).trace := by
  constructor <;> decide

/-- C6 (amended): part_000 persists the new offset right after handing the
chunk to the buffered sink; the only wait in between is the backpressure
`drain` event, which is not a durability barrier, and no
flush/fsync-equivalent primitive is invoked anywhere in any run — so
"offset persisted" does not imply "bytes durable" (the documented
crash-consistency window of the design). -/
theorem c6_no_flush_amended :
    ∀ respond sizeResp script sys,
      Event.flush ∉ (Part000.downloadDataset respond sizeResp script sys).trace := by
  intro respond sizeResp script sys
  rcases hp : askUserForLimit (preBytes (readState sys.stateFile).offset sys.dataFile)
      (readState sys.stateFile).limitBytes script with _ | lim
  · rw [part000_exit0 respond sizeResp script sys hp]
    simp
  · rw [part000_proceed respond sizeResp script sys lim hp, part000_runWithLimit_eq]
    rcases htot : getDatasetSize sizeResp with _ | T
    · rcases part000_finalize_trace _ _ _ _ with ht | ht <;> rw [ht] <;> simp [initSt]
    · obtain ⟨d, hd1, hd2, _⟩ := loop_trace_append respond Part000.tmoMs true T lim
        (T + 1) (initSt (readState sys.stateFile).offset sys.dataFile sys.stateFile)
      have htr : (loop respond Part000.tmoMs true T lim (T + 1)
          (initSt (readState sys.stateFile).offset sys.dataFile
            sys.stateFile)).2.trace = d := by
        rw [hd1]
        simp [initSt]
      rcases part000_finalize_trace _ _ _ _ with ht | ht <;> rw [ht, htr]
      · intro hmem
        rcases hd2 _ hmem with ⟨o, ho⟩ | ⟨c, ho⟩ | ⟨o, l, ho⟩ <;>
          exact Event.noConfusion ho
      · intro hmem
        rcases List.mem_append.mp hmem with hm | hm
        · rcases hd2 _ hm with ⟨o, ho⟩ | ⟨c, ho⟩ | ⟨o, l, ho⟩ <;>
            exact Event.noConfusion ho
        · simp only [List.mem_cons, List.not_mem_nil, or_false] at hm
          rcases hm with hm | hm <;> exact Event.noConfusion hm

/-- C6, witness: the amended theorem applied to the concrete completed run
of the counterexample input. -/
theorem c6_no_flush_witness :
    Event.flush ∉ (Part000.downloadDataset (fun _ _ => some [['a']])
      (some [some (some 1)])
      ⟨ResumeAnswer.yes, NewLimitAnswer.allRecords, ExtendAnswer.exitN⟩
      ⟨none, none⟩).trace :=
  c6_no_flush_amended (fun _ _ => some [['a']]) (some [some (some 1)])
    ⟨ResumeAnswer.yes, NewLimitAnswer.allRecords, ExtendAnswer.exitN⟩ ⟨none, none⟩

/-! ### Claim C7 (state loading is total and defaults to the zero state) -/

/-- C7: `readState` returns the zero-value state (offset 0, no limit) when
the persisted state file is absent or cannot be parsed; a corrupt file
additionally logs one error line and is treated as a fresh start, and
loading always returns a value (it is a total function, never fatal);
a parseable file is returned as-is. -/
theorem c7_read_state_defaults :
    readState none = ⟨0, none⟩ ∧
    readState (some none) = ⟨0, none⟩ ∧
    (∀ s, readState (some (some s)) = s) ∧
    readStateLog (some none) = ["Error reading state file, starting fresh."] ∧
    readStateLog none = [] :=
  ⟨rfl, rfl, fun _ => rfl, rfl, rfl⟩

/-! ### Claim C8 (SizeOracle fallback) -/

/-- C8, counterexample: a successful response whose first row has a truthy
`count` field that `parseInt` cannot parse (`NaN`) makes `getDatasetSize`
return `NaN` (modelled `none`) — not the hardcoded fallback 211670894 and
not a remotely reported count — refuting "on any failure, including a
malformed response, returns the fixed fallback". -/
theorem c8_counterexample :
    getDatasetSize (some [some none]) = none ∧
    getDatasetSize (some [some none]) ≠ some HARDCODED_TOTAL := by
  constructor <;> decide

/-- C8 (amended): `getDatasetSize` returns the hardcoded fallback
211670894 on a thrown request (timeout / network error), on an empty data
array, and on a missing or falsy `count` field; when the first row's
`count` is truthy it returns `parseInt(count)` unconditionally — which is
the reported count when the parse succeeds, but `NaN` (not the fallback)
when the truthy `count` is unparseable. -/
theorem c8_size_fallback_amended :
    getDatasetSize none = some HARDCODED_TOTAL ∧
    getDatasetSize (some []) = some HARDCODED_TOTAL ∧
    (∀ rest, getDatasetSize (some (none :: rest)) = some HARDCODED_TOTAL) ∧
    (∀ parsed rest, getDatasetSize (some (some parsed :: rest)) = parsed) ∧
    HARDCODED_TOTAL = 211670894 :=
  ⟨rfl, rfl, fun _ => rfl, fun _ _ => rfl, rfl⟩

/-! ### Claim C9 (page fetch: retries, delay, request parameters) -/

/-- C9: fetching one page issues at most 3 attempts, every request sets
`$limit = CHUNK_SIZE` (the page size, 50000), `$offset` to the current
offset and `$order = ":id"`, exactly one fixed 2000 ms sleep separates
consecutive attempts, and the fetch result is a failure (the exception
propagates to the orchestrator) precisely when all three attempts fail. -/
theorem c9_fetch_retry :
    ∀ respond offset,
      pageRequest Part000.tmoMs offset =
        { pageLimit := CHUNK_SIZE, offset := offset, order := ":id"
          timeoutMs := 60000 } ∧
      (fetchPage Part000.tmoMs respond offset).requests.length ≤ 3 ∧
      (∀ r ∈ (fetchPage Part000.tmoMs respond offset).requests,
        r = pageRequest Part000.tmoMs offset) ∧
      (fetchPage Part000.tmoMs respond offset).sleeps =
        List.replicate
          ((fetchPage Part000.tmoMs respond offset).requests.length - 1) 2000 ∧
      ((fetchPage Part000.tmoMs respond offset).result = none ↔
        respond (pageRequest Part000.tmoMs offset) 0 = none ∧
          respond (pageRequest Part000.tmoMs offset) 1 = none ∧
          respond (pageRequest Part000.tmoMs offset) 2 = none) := by
  intro respond offset
  exact ⟨rfl, fetchAttempts_spec Part000.tmoMs respond offset⟩

/-- C9, witness: with every attempt failing, exactly 3 requests are
issued and two 2-second sleeps separate them. -/
theorem c9_fetch_retry_witness :
    (fetchPage Part000.tmoMs (fun _ _ => none) 7).requests.length ≤ 3 ∧
    (fetchPage Part000.tmoMs (fun _ _ => none) 7).sleeps =
      List.replicate
        ((fetchPage Part000.tmoMs (fun _ _ => none) 7).requests.length - 1) 2000 :=
  ⟨(c9_fetch_retry (fun _ _ => none) 7).2.1,
   (c9_fetch_retry (fun _ _ => none) 7).2.2.2.1⟩

/-! ### Claim C10 (clean exit at the limit-reached prompt) -/

/-- C10: when the loaded state carries a limit that the bytes already on
disk have reached, and the extension prompt answer is `N` or an invalid
(or non-positive) amount — i.e. `askToExtend` resolves to
`process.exit(0)` — the part_000 run ends as `exited0` before the output
file is opened and before any state save: both the dataset file and the
state file are left exactly as they were and no side-effect event is
emitted. -/
theorem c10_prompt_exit_frame :
    ∀ respond sizeResp script sys L,
      (readState sys.stateFile).limitBytes = some L →
      L ≤ preBytes (readState sys.stateFile).offset sys.dataFile →
      askToExtend (some L) script = PromptOutcome.exit0 →
      (Part000.downloadDataset respond sizeResp script sys).outcome =
          Outcome.exited0 ∧
      (Part000.downloadDataset respond sizeResp script sys).sys = sys ∧
      (Part000.downloadDataset respond sizeResp script sys).trace = [] := by
  intro respond sizeResp script sys L h1 h2 h3
  have hp : askUserForLimit (preBytes (readState sys.stateFile).offset sys.dataFile)
      (readState sys.stateFile).limitBytes script = PromptOutcome.exit0 := by
    rw [h1]
    simp only [askUserForLimit]
    rw [if_neg (by omega)]
    exact h3
  rw [part000_exit0 respond sizeResp script sys hp]
  exact ⟨rfl, rfl, rfl⟩

/-- C10, witness: a concrete resume with 2 bytes on disk, a saved limit of
1 byte and answer `N` leaves both files untouched and exits with
status 0. -/
theorem c10_prompt_exit_witness :
    (Part000.downloadDataset (fun _ _ => some [['a']]) (some [some (some 10)])
      ⟨ResumeAnswer.yes, NewLimitAnswer.allRecords, ExtendAnswer.exitN⟩
      ⟨some (some ⟨1, some 1⟩), some ['[', 'a']⟩).outcome = Outcome.exited0 ∧
    (Part000.downloadDataset (fun _ _ => some [['a']]) (some [some (some 10)])
      ⟨ResumeAnswer.yes, NewLimitAnswer.allRecords, ExtendAnswer.exitN⟩
      ⟨some (some ⟨1, some 1⟩), some ['[', 'a']⟩).sys =
        ⟨some (some ⟨1, some 1⟩), some ['[', 'a']⟩ ∧
    (Part000.downloadDataset (fun _ _ => some [['a']]) (some [some (some 10)])
      ⟨ResumeAnswer.yes, NewLimitAnswer.allRecords, ExtendAnswer.exitN⟩
      ⟨some (some ⟨1, some 1⟩), some ['[', 'a']⟩).trace = [] :=
  c10_prompt_exit_frame (fun _ _ => some [['a']]) (some [some (some 10)])
    ⟨ResumeAnswer.yes, NewLimitAnswer.allRecords, ExtendAnswer.exitN⟩
    ⟨some (some ⟨1, some 1⟩), some ['[', 'a']⟩ 1 (by decide) (by decide) (by decide)

/-! ### Claim C2 (limit/failure exits: no closing bracket, state persisted) -/

/-- C2, counterexample: a first-ever run (no persisted state) that
negotiates a 1-byte limit at the prompt exits the loop via the limit
check before any chunk is written — and since no chunk was ever written,
no state record was ever persisted: the run ends with the state file
still absent, refuting "the state record remains persisted with the
offset of the last successfully written chunk" for this limit exit. -/
theorem c2_counterexample :
    (Part000.downloadDataset (fun _ _ => some [['a']]) (some [some (some 10)])
      ⟨ResumeAnswer.yes,
       NewLimitAnswer.limitGB (some (⟨1, 1073741824, by decide, by decide⟩ : ℚ)),
       ExtendAnswer.exitN⟩
      ⟨none, none⟩).cause = some ExitCause.limitReached ∧
    (Part000.downloadDataset (fun _ _ => some [['a']]) (some [some (some 10)])
      ⟨ResumeAnswer.yes,
       NewLimitAnswer.limitGB (some (⟨1, 1073741824, by decide, by decide⟩ : ℚ)),
       ExtendAnswer.exitN⟩
      ⟨none, none⟩).limitBytes = some 1 ∧
    (Part000.downloadDataset (fun _ _ => some [['a']]) (some [some (some 10)])
      ⟨ResumeAnswer.yes,
       NewLimitAnswer.limitGB (some (⟨1, 1073741824, by decide, by decide⟩ : ℚ)),
       ExtendAnswer.exitN⟩
      ⟨none, none⟩).sys.stateFile = none := by
  refine ⟨?_, ?_, ?_⟩ <;> decide

/-- C2 (amended): whenever the part_000 loop exits because the byte limit
was reached or because a page fetch failed after exhausting its retries,
the closing bracket is not written and the state file is not deleted (no
`closeArray` or `unlinkState` event).  On the fetch-failure path the catch
handler always re-persists the state with the final offset; on the
limit-reached path the state file either holds the offset of the last
chunk saved this run, or — when no chunk was written this run — is
exactly the state file the run started with (so it still names the last
successfully written offset of a previous run, and is absent only on a
first-ever run that hits the limit immediately). -/
theorem c2_no_close_on_limit_or_failure :
    ∀ respond sizeResp script sys,
      ((Part000.downloadDataset respond sizeResp script sys).cause =
          some ExitCause.fetchFailed →
        (Part000.downloadDataset respond sizeResp script sys).outcome =
            Outcome.failed ∧
        Event.closeArray ∉ (Part000.downloadDataset respond sizeResp script sys).trace ∧
        Event.unlinkState ∉ (Part000.downloadDataset respond sizeResp script sys).trace ∧
        (Part000.downloadDataset respond sizeResp script sys).sys.stateFile =
          saveState (Part000.downloadDataset respond sizeResp script sys).finalOffset
            (Part000.downloadDataset respond sizeResp script sys).limitBytes) ∧
      ((Part000.downloadDataset respond sizeResp script sys).cause =
          some ExitCause.limitReached →
        (Part000.downloadDataset respond sizeResp script sys).outcome =
            Outcome.paused ExitCause.limitReached ∧
        Event.closeArray ∉ (Part000.downloadDataset respond sizeResp script sys).trace ∧
        Event.unlinkState ∉ (Part000.downloadDataset respond sizeResp script sys).trace ∧
        ((Part000.downloadDataset respond sizeResp script sys).sys.stateFile =
            saveState (Part000.downloadDataset respond sizeResp script sys).finalOffset
              (Part000.downloadDataset respond sizeResp script sys).limitBytes ∨
          ((Part000.downloadDataset respond sizeResp script sys).sys.stateFile =
              sys.stateFile ∧
            (Part000.downloadDataset respond sizeResp script sys).finalOffset =
              (readState sys.stateFile).offset))) := by
  intro respond sizeResp script sys
  rcases hp : askUserForLimit (preBytes (readState sys.stateFile).offset sys.dataFile)
      (readState sys.stateFile).limitBytes script with _ | lim
  · rw [part000_exit0 respond sizeResp script sys hp]
    constructor <;> (intro hc; simp at hc)
  · rw [part000_proceed respond sizeResp script sys lim hp, part000_runWithLimit_eq]
    rcases htot : getDatasetSize sizeResp with _ | T
    · constructor <;>
        (intro hc; rw [part000_finalize_cause] at hc; simp at hc)
    · obtain ⟨d, hd1, hd2, _⟩ := loop_trace_append respond Part000.tmoMs true T lim
        (T + 1) (initSt (readState sys.stateFile).offset sys.dataFile sys.stateFile)
      have htr : (loop respond Part000.tmoMs true T lim (T + 1)
          (initSt (readState sys.stateFile).offset sys.dataFile
            sys.stateFile)).2.trace = d := by
        rw [hd1]
        simp [initSt]
      have hfuel : T - (initSt (readState sys.stateFile).offset sys.dataFile
          sys.stateFile).offset < T + 1 := by omega
      have hspec := loop_cause_spec respond Part000.tmoMs true T lim (T + 1)
        (initSt (readState sys.stateFile).offset sys.dataFile sys.stateFile) hfuel
      constructor
      · intro hc
        rw [part000_finalize_cause] at hc
        have hc2 : (loop respond Part000.tmoMs true T lim (T + 1)
            (initSt (readState sys.stateFile).offset sys.dataFile
              sys.stateFile)).1 = ExitCause.fetchFailed := Option.some.inj hc
        rcases hspec.2.2.2 hc2 with ⟨_, _, hsf⟩
        rw [part000_finalize_of_failed _ _ _ _ hc2]
        refine ⟨rfl, ?_, ?_, hsf rfl⟩
        · simp only [htr]
          intro hmem
          rcases hd2 _ hmem with ⟨o, ho⟩ | ⟨c, ho⟩ | ⟨o, l, ho⟩ <;>
            exact Event.noConfusion ho
        · simp only [htr]
          intro hmem
          rcases hd2 _ hmem with ⟨o, ho⟩ | ⟨c, ho⟩ | ⟨o, l, ho⟩ <;>
            exact Event.noConfusion ho
      · intro hc
        rw [part000_finalize_cause] at hc
        have hc2 : (loop respond Part000.tmoMs true T lim (T + 1)
            (initSt (readState sys.stateFile).offset sys.dataFile
              sys.stateFile)).1 = ExitCause.limitReached := Option.some.inj hc
        rcases hspec.2.2.1 hc2 with ⟨_, hlt⟩
        rw [part000_finalize_of_paused _ _ _ _ (by rw [hc2]; simp)
          (jsGe_false_of_lt _ _ hlt)]
        refine ⟨by rw [hc2], ?_, ?_, ?_⟩
        · simp only [htr]
          intro hmem
          rcases hd2 _ hmem with ⟨o, ho⟩ | ⟨c, ho⟩ | ⟨o, l, ho⟩ <;>
            exact Event.noConfusion ho
        · simp only [htr]
          intro hmem
          rcases hd2 _ hmem with ⟨o, ho⟩ | ⟨c, ho⟩ | ⟨o, l, ho⟩ <;>
            exact Event.noConfusion ho
        · rcases loop_state_or respond Part000.tmoMs true T lim (T + 1)
              (initSt (readState sys.stateFile).offset sys.dataFile sys.stateFile)
            with ⟨hsf, hof, _, _⟩ | hsf
          · exact Or.inr ⟨hsf, hof⟩
          · exact Or.inl hsf

/-- C2, witness: a resume run with 3 bytes on disk, saved offset 1 and a
4-byte limit writes one more chunk (persisting offset 2), then hits the
limit: the run pauses with the array open and the state record holding
offset 2. -/
theorem c2_no_close_witness :
    (Part000.downloadDataset (fun _ _ => some [['b']]) (some [some (some 10)])
      ⟨ResumeAnswer.yes, NewLimitAnswer.allRecords, ExtendAnswer.exitN⟩
      ⟨some (some ⟨1, some 4⟩), some ['[', 'a', 'b']⟩).outcome =
        Outcome.paused ExitCause.limitReached ∧
    Event.closeArray ∉ (Part000.downloadDataset (fun _ _ => some [['b']])
      (some [some (some 10)])
      ⟨ResumeAnswer.yes, NewLimitAnswer.allRecords, ExtendAnswer.exitN⟩
      ⟨some (some ⟨1, some 4⟩), some ['[', 'a', 'b']⟩).trace ∧
    Event.unlinkState ∉ (Part000.downloadDataset (fun _ _ => some [['b']])
      (some [some (some 10)])
      ⟨ResumeAnswer.yes, NewLimitAnswer.allRecords, ExtendAnswer.exitN⟩
      ⟨some (some ⟨1, some 4⟩), some ['[', 'a', 'b']⟩).trace ∧
    ((Part000.downloadDataset (fun _ _ => some [['b']]) (some [some (some 10)])
      ⟨ResumeAnswer.yes, NewLimitAnswer.allRecords, ExtendAnswer.exitN⟩
      ⟨some (some ⟨1, some 4⟩), some ['[', 'a', 'b']⟩).sys.stateFile =
        saveState (Part000.downloadDataset (fun _ _ => some [['b']])
          (some [some (some 10)])
          ⟨ResumeAnswer.yes, NewLimitAnswer.allRecords, ExtendAnswer.exitN⟩
          ⟨some (some ⟨1, some 4⟩), some ['[', 'a', 'b']⟩).finalOffset
          (Part000.downloadDataset (fun _ _ => some [['b']])
            (some [some (some 10)])
            ⟨ResumeAnswer.yes, NewLimitAnswer.allRecords, ExtendAnswer.exitN⟩
            ⟨some (some ⟨1, some 4⟩), some ['[', 'a', 'b']⟩).limitBytes ∨
      ((Part000.downloadDataset (fun _ _ => some [['b']]) (some [some (some 10)])
        ⟨ResumeAnswer.yes, NewLimitAnswer.allRecords, ExtendAnswer.exitN⟩
        ⟨some (some ⟨1, some 4⟩), some ['[', 'a', 'b']⟩).sys.stateFile =
          some (some ⟨1, some 4⟩) ∧
        (Part000.downloadDataset (fun _ _ => some [['b']]) (some [some (some 10)])
          ⟨ResumeAnswer.yes, NewLimitAnswer.allRecords, ExtendAnswer.exitN⟩
          ⟨some (some ⟨1, some 4⟩), some ['[', 'a', 'b']⟩).finalOffset =
            (readState (some (some ⟨1, some 4⟩))).offset)) :=
  (c2_no_close_on_limit_or_failure (fun _ _ => some [['b']])
    (some [some (some 10)])
    ⟨ResumeAnswer.yes, NewLimitAnswer.allRecords, ExtendAnswer.exitN⟩
    ⟨some (some ⟨1, some 4⟩), some ['[', 'a', 'b']⟩).2 (by decide)

theorem part000_finalize_limitBytes (t : Option Nat) (lim : Option Nat) (db : Nat)
    (res : ExitCause × LoopSt) :
    (Part000.finalize t lim db res).limitBytes = lim := by
  unfold Part000.finalize
  split_ifs <;> rfl

theorem part000_finalize_finalBytes (t : Option Nat) (lim : Option Nat) (db : Nat)
    (res : ExitCause × LoopSt) :
    (Part000.finalize t lim db res).finalBytes = res.2.downloadedBytes := by
  unfold Part000.finalize
  split_ifs <;> rfl

theorem part000_finalize_initialBytes (t : Option Nat) (lim : Option Nat) (db : Nat)
    (res : ExitCause × LoopSt) :
    (Part000.finalize t lim db res).initialBytes = db := by
  unfold Part000.finalize
  split_ifs <;> rfl

theorem initSt_db_file (o : Nat) (df : Option (List Char))
    (sf : Option (Option StateRec)) :
    (initSt o df sf).downloadedBytes = (initSt o df sf).file.length := by
  rcases df with _ | f <;> rcases o with _ | o2 <;> simp [initSt, preBytes]

theorem part000_runWithLimit_some (respond : SocrataRequest → Nat → Option (List Rec))
    (sizeResp : Option (List CountRow)) (lim : Option Nat) (sys : Sys) (T : Nat)
    (h : getDatasetSize sizeResp = some T) :
    Part000.runWithLimit respond sizeResp lim sys =
      Part000.finalize (some T) lim
        (initSt (readState sys.stateFile).offset sys.dataFile sys.stateFile).downloadedBytes
        (loop respond Part000.tmoMs true T lim (T + 1)
          (initSt (readState sys.stateFile).offset sys.dataFile sys.stateFile)) := by
  rw [part000_runWithLimit_eq, h]

theorem part000_runWithLimit_none (respond : SocrataRequest → Nat → Option (List Rec))
    (sizeResp : Option (List CountRow)) (lim : Option Nat) (sys : Sys)
    (h : getDatasetSize sizeResp = none) :
    Part000.runWithLimit respond sizeResp lim sys =
      Part000.finalize none lim
        (initSt (readState sys.stateFile).offset sys.dataFile sys.stateFile).downloadedBytes
        (ExitCause.condFalse,
          initSt (readState sys.stateFile).offset sys.dataFile sys.stateFile) := by
  rw [part000_runWithLimit_eq, h]

theorem part000_runWithLimit_limitBytes
    (respond : SocrataRequest → Nat → Option (List Rec))
    (sizeResp : Option (List CountRow)) (lim : Option Nat) (sys : Sys) :
    (Part000.runWithLimit respond sizeResp lim sys).limitBytes = lim := by
  rw [part000_runWithLimit_eq, part000_finalize_limitBytes]

/-! ### Claim C3 (byte-limit boundary) -/

/-- C3, counterexample: a resume run with 10 bytes already on disk that
negotiates a fresh 2-byte limit stops at the limit check, but the final
on-disk size is 10, which is not strictly less than `B + W = 2 + 2` even
though every chunk the mock dataset can produce weighs at most `W = 2`
bytes — refuting the unconditional bound `final size < B + W`. -/
theorem c3_counterexample :
    (chunkData true [['b']]).length ≤ 2 ∧
    (chunkData false [['b']]).length ≤ 2 ∧
    (Part000.downloadDataset (fun _ _ => some [['b']]) (some [some (some 5)])
      ⟨ResumeAnswer.no,
       NewLimitAnswer.limitGB (some (⟨1, 536870912, by decide, by decide⟩ : ℚ)),
       ExtendAnswer.exitN⟩
      ⟨some (some ⟨1, some 20⟩), some ('[' :: List.replicate 9 'a')⟩).limitBytes =
        some 2 ∧
    (Part000.downloadDataset (fun _ _ => some [['b']]) (some [some (some 5)])
      ⟨ResumeAnswer.no,
       NewLimitAnswer.limitGB (some (⟨1, 536870912, by decide, by decide⟩ : ℚ)),
       ExtendAnswer.exitN⟩
      ⟨some (some ⟨1, some 20⟩), some ('[' :: List.replicate 9 'a')⟩).cause =
        some ExitCause.limitReached ∧
    ¬(((Part000.downloadDataset (fun _ _ => some [['b']]) (some [some (some 5)])
      ⟨ResumeAnswer.no,
       NewLimitAnswer.limitGB (some (⟨1, 536870912, by decide, by decide⟩ : ℚ)),
       ExtendAnswer.exitN⟩
      ⟨some (some ⟨1, some 20⟩),
        some ('[' :: List.replicate 9 'a')⟩).sys.dataFile.getD []).length < 2 + 2) := by
  refine ⟨?_, ?_, ?_, ?_, ?_⟩ <;> decide

/-- C3 (amended): when a byte limit `B` is negotiated, the check before
each write compares the accumulated byte count against `B` and the loop
exits without writing once it reaches or exceeds `B`.  Consequently, for a
run that starts below the limit (initial byte count `< B`) and whose
chunks all weigh at most `W` bytes, the final byte counter stays strictly
below `B + W`, the final on-disk size is at most `B + W`, and it is
strictly below `B + W` whenever the run does not complete (the one extra
byte being the closing bracket of a completed run).  A run that starts at
or above the limit (e.g. resuming a large file under a smaller fresh
limit) writes nothing and keeps its initial size, which can exceed
`B + W`. -/
theorem c3_limit_bound_amended :
    ∀ (respond : SocrataRequest → Nat → Option (List Rec)) sizeResp script sys
      (B W : Nat) r,
      r = Part000.downloadDataset respond sizeResp script sys →
      r.limitBytes = some B →
      (∀ o k rs, respond (pageRequest Part000.tmoMs o) k = some rs →
        ∀ b, (chunkData b rs).length ≤ W) →
      r.initialBytes < B →
      r.finalBytes < B + W ∧
      (r.sys.dataFile.getD []).length ≤ B + W ∧
      (r.outcome ≠ Outcome.completed → (r.sys.dataFile.getD []).length < B + W) := by
  intro respond sizeResp script sys B W r hr hlim hW hinit
  subst hr
  rcases hp : askUserForLimit (preBytes (readState sys.stateFile).offset sys.dataFile)
      (readState sys.stateFile).limitBytes script with _ | lim
  · rw [part000_exit0 respond sizeResp script sys hp] at hlim
    simp at hlim
  · rw [part000_proceed respond sizeResp script sys lim hp] at hlim hinit ⊢
    have hlb : lim = some B := by
      rw [part000_runWithLimit_limitBytes] at hlim
      exact hlim
    subst hlb
    rcases htot : getDatasetSize sizeResp with _ | T
    · rw [part000_runWithLimit_none respond sizeResp (some B) sys htot] at hinit ⊢
      rw [part000_finalize_initialBytes] at hinit
      rw [part000_finalize_of_paused _ _ _ _ (by simp) (by simp [jsGe])]
      have hfl := initSt_db_file (readState sys.stateFile).offset sys.dataFile
        sys.stateFile
      simp only [Option.getD_some]
      refine ⟨by omega, by omega, fun _ => by omega⟩
    · rw [part000_runWithLimit_some respond sizeResp (some B) sys T htot]
        at hinit ⊢
      rw [part000_finalize_initialBytes] at hinit
      have hbound := loop_limit_bound respond Part000.tmoMs true T B W hW (T + 1)
        (initSt (readState sys.stateFile).offset sys.dataFile sys.stateFile)
      have hdb : (loop respond Part000.tmoMs true T (some B) (T + 1)
          (initSt (readState sys.stateFile).offset sys.dataFile
            sys.stateFile)).2.downloadedBytes < B + W := by
        rcases hbound with hb | hb
        · exact hb
        · omega
      have hfile := loop_db_file respond Part000.tmoMs true T (some B) (T + 1)
        (initSt (readState sys.stateFile).offset sys.dataFile sys.stateFile)
        (initSt_db_file _ _ _)
      by_cases hf : (loop respond Part000.tmoMs true T (some B) (T + 1)
          (initSt (readState sys.stateFile).offset sys.dataFile
            sys.stateFile)).1 = ExitCause.fetchFailed
      · rw [part000_finalize_of_failed _ _ _ _ hf]
        simp only [Option.getD_some]
        refine ⟨hdb, by omega, fun _ => by omega⟩
      · by_cases hg : jsGe (loop respond Part000.tmoMs true T (some B) (T + 1)
            (initSt (readState sys.stateFile).offset sys.dataFile
              sys.stateFile)).2.offset (some T) = true
        · rw [part000_finalize_of_completed _ _ _ _ hf hg]
          simp only [Option.getD_some, List.length_append, List.length_cons,
            List.length_nil]
          refine ⟨hdb, by omega, fun hcon => absurd rfl hcon⟩
        · rw [part000_finalize_of_paused _ _ _ _ hf
            (Bool.not_eq_true _ ▸ hg : jsGe _ _ = false)]
          simp only [Option.getD_some]
          refine ⟨hdb, by omega, fun _ => by omega⟩

/-- C3, witness: a fresh run with a negotiated 2-byte limit and 1-byte
records writes one chunk (reaching 2 bytes on disk after the opening
bracket), then stops at the limit check before the next write: the final
size is at most `B + W = 2 + 2` and strictly below it since the run did
not complete. -/
theorem c3_limit_bound_witness :
    ((Part000.downloadDataset (fun _ _ => some [['a']]) (some [some (some 10)])
      ⟨ResumeAnswer.yes,
       NewLimitAnswer.limitGB (some (⟨1, 536870912, by decide, by decide⟩ : ℚ)),
       ExtendAnswer.exitN⟩
      ⟨none, none⟩).finalBytes < 2 + 2) ∧
    (((Part000.downloadDataset (fun _ _ => some [['a']]) (some [some (some 10)])
      ⟨ResumeAnswer.yes,
       NewLimitAnswer.limitGB (some (⟨1, 536870912, by decide, by decide⟩ : ℚ)),
       ExtendAnswer.exitN⟩
      ⟨none, none⟩).sys.dataFile.getD []).length ≤ 2 + 2) ∧
    ((Part000.downloadDataset (fun _ _ => some [['a']]) (some [some (some 10)])
      ⟨ResumeAnswer.yes,
       NewLimitAnswer.limitGB (some (⟨1, 536870912, by decide, by decide⟩ : ℚ)),
       ExtendAnswer.exitN⟩
      ⟨none, none⟩).outcome ≠ Outcome.completed →
      ((Part000.downloadDataset (fun _ _ => some [['a']]) (some [some (some 10)])
        ⟨ResumeAnswer.yes,
         NewLimitAnswer.limitGB (some (⟨1, 536870912, by decide, by decide⟩ : ℚ)),
         ExtendAnswer.exitN⟩
        ⟨none, none⟩).sys.dataFile.getD []).length < 2 + 2) :=
  c3_limit_bound_amended (fun _ _ => some [['a']]) (some [some (some 10)])
    ⟨ResumeAnswer.yes,
     NewLimitAnswer.limitGB (some (⟨1, 536870912, by decide, by decide⟩ : ℚ)),
     ExtendAnswer.exitN⟩
    ⟨none, none⟩ 2 2 _ rfl (by decide)
    (fun o k rs h b => by
      injection h with h2
      subst h2
      cases b <;> decide)
    (by decide)

theorem downloadjs_some (respond : SocrataRequest → Nat → Option (List Rec))
    (sizeResp : Option (List CountRow)) (sys : Sys) (T : Nat)
    (h : getDatasetSize sizeResp = some T) :
    DownloadJs.downloadDataset respond sizeResp sys =
      DownloadJs.finalize
        (initSt (DownloadJs.initOffset sys.stateFile sys.dataFile) sys.dataFile
          sys.stateFile).downloadedBytes
        (loop respond DownloadJs.tmoMs false T none (T + 1)
          (initSt (DownloadJs.initOffset sys.stateFile sys.dataFile) sys.dataFile
            sys.stateFile)) := by
  rw [downloadjs_eq, h]

theorem downloadjs_none (respond : SocrataRequest → Nat → Option (List Rec))
    (sizeResp : Option (List CountRow)) (sys : Sys)
    (h : getDatasetSize sizeResp = none) :
    DownloadJs.downloadDataset respond sizeResp sys =
      DownloadJs.finalize
        (initSt (DownloadJs.initOffset sys.stateFile sys.dataFile) sys.dataFile
          sys.stateFile).downloadedBytes
        (ExitCause.condFalse,
          initSt (DownloadJs.initOffset sys.stateFile sys.dataFile) sys.dataFile
            sys.stateFile) := by
  rw [downloadjs_eq, h]

theorem downloadjs_finalize_trace (db : Nat) (res : ExitCause × LoopSt) :
    (DownloadJs.finalize db res).trace = res.2.trace ∨
    (DownloadJs.finalize db res).trace =
      res.2.trace ++ [Event.closeArray, Event.unlinkState] := by
  unfold DownloadJs.finalize
  split_ifs <;> simp

theorem savedOffsets_close_unlink (tr : List Event) :
    savedOffsets (tr ++ [Event.closeArray, Event.unlinkState]) = savedOffsets tr := by
  simp [savedOffsets]

/-! ### Claim C5 (offset validation and monotonicity, download.js) -/

/-- C5, counterexample: at the start of a run with no persisted state but
a leftover output file (as after a completed earlier run), the effective
offset is 0 while the output file exists, refuting the biconditional
"offset == 0 holds exactly when no output file exists". -/
theorem c5_counterexample :
    ¬(DownloadJs.initOffset none (some ['[', ']']) = 0 ↔
      (some ['[', ']'] : Option (List Char)) = none) := by
  decide

/-- C5 (amended): in download.js, a loaded positive offset with the
output file missing is reset to 0 (fresh start); with the file present the
loaded offset is kept unchanged, so a positive effective offset guarantees
the file exists (the converse can fail: offset 0 with a leftover file,
which the run then truncates).  Within a run, the persisted offsets form a
non-decreasing chain starting from the effective initial offset; since a
later run resumes from the last persisted offset while the file persists,
the offset is non-decreasing across process restarts for the lifetime of
the dataset file. -/
theorem c5_offset_validation_amended :
    (∀ stored, 0 < (readState stored).offset →
      DownloadJs.initOffset stored none = 0) ∧
    (∀ stored f, DownloadJs.initOffset stored (some f) = (readState stored).offset) ∧
    (∀ stored df, 0 < DownloadJs.initOffset stored df → df ≠ none) ∧
    (∀ respond sizeResp sys,
      List.Chain' (· ≤ ·)
        (DownloadJs.initOffset sys.stateFile sys.dataFile ::
          savedOffsets (DownloadJs.downloadDataset respond sizeResp sys).trace)) := by
  refine ⟨?_, ?_, ?_, ?_⟩
  · intro stored h
    simp [DownloadJs.initOffset, h]
  · intro stored f
    simp [DownloadJs.initOffset]
  · intro stored df h hdf
    subst hdf
    by_cases h0 : 0 < (readState stored).offset <;>
      simp [DownloadJs.initOffset, h0] at h
  · intro respond sizeResp sys
    rcases htot : getDatasetSize sizeResp with _ | T
    · rw [downloadjs_none respond sizeResp sys htot]
      rcases downloadjs_finalize_trace _ _ with ht | ht <;> rw [ht] <;>
        simp [initSt, savedOffsets]
    · rw [downloadjs_some respond sizeResp sys T htot]
      obtain ⟨d, hd1, hd2, hd3⟩ := loop_trace_append respond DownloadJs.tmoMs false T
        none (T + 1)
        (initSt (DownloadJs.initOffset sys.stateFile sys.dataFile) sys.dataFile
          sys.stateFile)
      have htr : (loop respond DownloadJs.tmoMs false T none (T + 1)
          (initSt (DownloadJs.initOffset sys.stateFile sys.dataFile) sys.dataFile
            sys.stateFile)).2.trace = d := by
        rw [hd1]
        simp [initSt]
      have hof : (initSt (DownloadJs.initOffset sys.stateFile sys.dataFile)
          sys.dataFile sys.stateFile).offset =
          DownloadJs.initOffset sys.stateFile sys.dataFile := rfl
      rw [hof] at hd3
      rcases downloadjs_finalize_trace _ _ with ht | ht <;> rw [ht, htr]
      · exact hd3
      · rw [savedOffsets_close_unlink]
        exact hd3

theorem part000_finalize_sys (t : Option Nat) (lim : Option Nat) (db : Nat)
    (res : ExitCause × LoopSt) :
    (Part000.finalize t lim db res).sys = ⟨res.2.stateFile, some res.2.file⟩ ∨
    (Part000.finalize t lim db res).sys.stateFile = none := by
  unfold Part000.finalize
  split_ifs <;> simp

theorem init_LInv (sys : Sys) (h : SysInv sys) :
    ∃ recs0, LInv (initSt (readState sys.stateFile).offset sys.dataFile
      sys.stateFile) recs0 := by
  by_cases h0 : (readState sys.stateFile).offset = 0
  · refine ⟨[], ?_, ?_, ?_, ?_⟩
    · show (initSt (readState sys.stateFile).offset sys.dataFile sys.stateFile).file = _
      simp [initSt, h0, sepJoin]
    · simp [initSt, h0]
    · intro _
      rfl
    · intro hfc
      simp [initSt, h0] at hfc
  · have hex : ∃ s, sys.stateFile = some (some s) := by
      rcases hq : sys.stateFile with _ | os
      · exact absurd (by rw [hq]; rfl) h0
      · rcases os with _ | s
        · exact absurd (by rw [hq]; rfl) h0
        · exact ⟨s, rfl⟩
    rcases hex with ⟨s, hsf⟩
    have hoff : (readState sys.stateFile).offset = s.offset := by rw [hsf]; rfl
    have hpos : 0 < s.offset := by
      rcases Nat.eq_zero_or_pos s.offset with hz | hp
      · exact absurd (by rw [hoff, hz]) h0
      · exact hp
    rcases h s.offset s.limitBytes (by rw [hsf]) hpos with ⟨recs, hdf, hlen, hne⟩
    refine ⟨recs, ?_, ?_, ?_, ?_⟩
    · show (initSt (readState sys.stateFile).offset sys.dataFile
        sys.stateFile).file = _
      simp [initSt, h0, hdf]
    · show recs.length =
        (initSt (readState sys.stateFile).offset sys.dataFile sys.stateFile).offset
      simp [initSt, hoff, hlen]
    · intro hfc
      simp [initSt, h0] at hfc
    · intro _
      exact hne

theorem sys_inv_preserved (inp : RunInput) (sys : Sys) (h : SysInv sys) :
    SysInv (runSys inp sys).sys := by
  unfold runSys
  rcases hp : askUserForLimit (preBytes (readState sys.stateFile).offset sys.dataFile)
      (readState sys.stateFile).limitBytes inp.script with _ | lim
  · rw [part000_exit0 inp.respond inp.sizeResp inp.script sys hp]
    exact h
  · rw [part000_proceed inp.respond inp.sizeResp inp.script sys lim hp]
    rcases htot : getDatasetSize inp.sizeResp with _ | T
    · rw [part000_runWithLimit_none inp.respond inp.sizeResp lim sys htot]
      rcases part000_finalize_sys none lim
          (initSt (readState sys.stateFile).offset sys.dataFile
            sys.stateFile).downloadedBytes
          (ExitCause.condFalse,
            initSt (readState sys.stateFile).offset sys.dataFile sys.stateFile)
        with hfs | hfs
      · rw [hfs]
        intro o l hsf2 ho
        have hsf3 : sys.stateFile = some (some ⟨o, l⟩) := hsf2
        rcases h o l hsf3 ho with ⟨recs, hdf, hlen, hne⟩
        refine ⟨recs, ?_, hlen, hne⟩
        have hne0 : ¬((readState sys.stateFile).offset = 0) := by
          rw [hsf3]
          show ¬(o = 0)
          omega
        show some (initSt (readState sys.stateFile).offset sys.dataFile
          sys.stateFile).file = _
        simp [initSt, hne0, hdf]
      · intro o l hsf2 ho
        rw [hfs] at hsf2
        cases hsf2
    · rw [part000_runWithLimit_some inp.respond inp.sizeResp lim sys T htot]
      rcases init_LInv sys h with ⟨recs0, hL0⟩
      rcases loop_LInv inp.respond Part000.tmoMs true T lim (T + 1)
          (initSt (readState sys.stateFile).offset sys.dataFile sys.stateFile)
          recs0 hL0
        with ⟨recs2, hL2⟩
      rcases part000_finalize_sys (some T) lim
          (initSt (readState sys.stateFile).offset sys.dataFile
            sys.stateFile).downloadedBytes
          (loop inp.respond Part000.tmoMs true T lim (T + 1)
            (initSt (readState sys.stateFile).offset sys.dataFile sys.stateFile))
        with hfs | hfs
      · rw [hfs]
        intro o l hsf2 ho
        have hsf3 : (loop inp.respond Part000.tmoMs true T lim (T + 1)
            (initSt (readState sys.stateFile).offset sys.dataFile
              sys.stateFile)).2.stateFile = some (some ⟨o, l⟩) := hsf2
        rcases loop_state_or inp.respond Part000.tmoMs true T lim (T + 1)
            (initSt (readState sys.stateFile).offset sys.dataFile sys.stateFile)
          with ⟨hst, hof, hfile, _⟩ | hst
        · have hsf4 : sys.stateFile = some (some ⟨o, l⟩) := by
            rw [← hsf3, hst]
            rfl
          rcases h o l hsf4 ho with ⟨recs, hdf, hlen, hne⟩
          refine ⟨recs, ?_, hlen, hne⟩
          have hne0 : ¬((readState sys.stateFile).offset = 0) := by
            rw [hsf4]
            show ¬(o = 0)
            omega
          show some (loop inp.respond Part000.tmoMs true T lim (T + 1)
            (initSt (readState sys.stateFile).offset sys.dataFile
              sys.stateFile)).2.file = _
          rw [hfile]
          simp [initSt, hne0, hdf]
        · rw [hst] at hsf3
          have hinj : (loop inp.respond Part000.tmoMs true T lim (T + 1)
              (initSt (readState sys.stateFile).offset sys.dataFile
                sys.stateFile)).2.offset = o ∧ lim = l := by
            simp [saveState, StateRec.mk.injEq] at hsf3
            exact hsf3
          obtain ⟨hinjo, hinjl⟩ := hinj
          rcases hL2 with ⟨hfile2, hlen2, _, _⟩
          refine ⟨recs2, ?_, ?_, ?_⟩
          · show some (loop inp.respond Part000.tmoMs true T lim (T + 1)
              (initSt (readState sys.stateFile).offset sys.dataFile
                sys.stateFile)).2.file = _
            rw [hfile2]
          · rw [hlen2, hinjo]
          · intro hnil
            rw [hnil] at hlen2
            simp at hlen2
            omega
      · intro o l hsf2 ho
        rw [hfs] at hsf2
        cases hsf2

/-! ### Claim C4 (separator discipline across runs and resumptions) -/

/-- C4: across any number of part_000 runs and resumptions starting from
an empty world, whenever the persisted state records a positive offset
`o`, the output file is exactly the opening bracket followed by `o`
records joined by single commas (no closing bracket); hence — for records
that are nonempty and contain no top-level comma of their own — the
content after the opening bracket contains exactly `o - 1` separators,
with no separator before the first record and none after the last. -/
theorem c4_separator_invariant :
    ∀ (inputs : List RunInput) (o : Nat) (l : Option Nat),
      (runAll inputs initSys).stateFile = some (some ⟨o, l⟩) → 0 < o →
      ∃ recs : List Rec,
        (runAll inputs initSys).dataFile = some ('[' :: sepJoin recs) ∧
        recs.length = o ∧
        ((∀ q ∈ recs, q ≠ [] ∧ ',' ∉ q) →
          (sepJoin recs).count ',' = o - 1 ∧
          (sepJoin recs).head? ≠ some ',' ∧
          (sepJoin recs).getLast? ≠ some ',') := by
  have hall : ∀ (inputs : List RunInput) (sys : Sys), SysInv sys →
      SysInv (runAll inputs sys) := by
    intro inputs
    induction inputs with
    | nil => intro sys hs; exact hs
    | cons i rest ih =>
      intro sys hs
      exact ih _ (sys_inv_preserved i sys hs)
  intro inputs o l hsf ho
  have h0 : SysInv initSys := by
    intro o2 l2 hx
    simp [initSys] at hx
  rcases hall inputs initSys h0 o l hsf ho with ⟨recs, h1, h2, h3⟩
  refine ⟨recs, h1, h2, fun hcf => ?_⟩
  refine ⟨?_, ?_, ?_⟩
  · rw [sepJoin_count recs h3 (fun q hq => (hcf q hq).2), h2]
  · cases hrc : recs with
    | nil => exact absurd hrc h3
    | cons q qs =>
      exact sepJoin_head q qs (hcf q (by rw [hrc]; exact List.mem_cons_self q qs)).1
        (hcf q (by rw [hrc]; exact List.mem_cons_self q qs)).2
  · exact sepJoin_getLast recs h3 hcf

/-- C4, witness: one fresh run that writes two one-byte records and then
hits a fetch failure at offset 2 leaves the persisted offset 2 and the
open array `[a,b`; the theorem instantiates to the exact separator
discipline of that file. -/
theorem c4_separator_witness :
    ∃ recs : List Rec,
      (runAll [⟨fun req _ => if req.offset = 0 then some [['a']]
          else if req.offset = 1 then some [['b']] else none,
        some [some (some 3)],
        ⟨ResumeAnswer.yes, NewLimitAnswer.allRecords, ExtendAnswer.exitN⟩⟩]
        initSys).dataFile = some ('[' :: sepJoin recs) ∧
      recs.length = 2 ∧
      ((∀ q ∈ recs, q ≠ [] ∧ ',' ∉ q) →
        (sepJoin recs).count ',' = 2 - 1 ∧
        (sepJoin recs).head? ≠ some ',' ∧
        (sepJoin recs).getLast? ≠ some ',') :=
  c4_separator_invariant
    [⟨fun req _ => if req.offset = 0 then some [['a']]
        else if req.offset = 1 then some [['b']] else none,
      some [some (some 3)],
      ⟨ResumeAnswer.yes, NewLimitAnswer.allRecords, ExtendAnswer.exitN⟩⟩]
    2 none (by decide) (by decide)

/-- C5, witness: a loaded offset 3 with the output file missing is reset
to 0, and a concrete resume run keeps its persisted offsets in a
non-decreasing chain from the loaded offset 2. -/
theorem c5_offset_validation_witness :
    DownloadJs.initOffset (some (some ⟨3, none⟩)) none = 0 ∧
    List.Chain' (· ≤ ·)
      (DownloadJs.initOffset (some (some ⟨2, none⟩)) (some ['[', 'a']) ::
        savedOffsets (DownloadJs.downloadDataset (fun _ _ => some [['b']])
          (some [some (some 4)]) ⟨some (some ⟨2, none⟩), some ['[', 'a']⟩).trace) :=
  ⟨c5_offset_validation_amended.1 (some (some ⟨3, none⟩)) (by decide),
   c5_offset_validation_amended.2.2.2 (fun _ _ => some [['b']])
     (some [some (some 4)]) ⟨some (some ⟨2, none⟩), some ['[', 'a']⟩⟩
